import Mathlib

/-!
# mrtux: Jenkins gateway (packages/jenkins/jenkins.go)

A shallow embedding of the Jenkins client of `mrtux` and the properties of its
operations: template rendering, job XML assembly, crumb extraction, status
classification, the Basic authorization header and git URL construction.

Go strings are byte sequences, so a Go `string` is modelled as a list of bytes.
The standard-library functions the client calls (`strings.ReplaceAll`,
`strings.Split`, `strings.Contains`, `fmt.Sprintf`, `base64.StdEncoding`) are
modelled on byte lists by structural recursion.  The outside world (the file
system, URL parsing inside `http.NewRequest`, the HTTP round trip) is an explicit
environment, and every operation returns the list of requests it sent together
with its Go result.
-/

set_option maxRecDepth 100000

namespace Mrtux

/-! ## Go strings and the `strings` functions the client calls -/

/-- One byte of a Go string. -/
abbrev Byte := Fin 256

/-- A Go `string`: an immutable sequence of bytes. -/
abbrev GoString := List Byte

/-- The bytes of an ASCII string literal of the source (every literal of
`jenkins.go` that is modelled here is ASCII, so one character is one byte). -/
def lit (s : String) : GoString :=
  s.toList.map (fun c => (⟨c.toNat % 256, Nat.mod_lt _ (by decide)⟩ : Byte))

/-- Go `strings.HasPrefix(s, p)`: `p` is an initial segment of `s`. -/
def hasPrefix (s p : GoString) : Bool :=
  match p, s with
  | [], _ => true
  | _ :: _, [] => false
  | d :: p, c :: s => c == d && hasPrefix s p

/-- Scanning loop of `strings.ReplaceAll`: `skip` counts the bytes of the
occurrence of `old` just matched that are still to be passed over, so matches
are taken left to right and never overlap. -/
def replaceFrom (old new : GoString) : Nat → GoString → GoString
  | _, [] => []
  | skip + 1, _ :: s => replaceFrom old new skip s
  | 0, c :: s =>
    if hasPrefix (c :: s) old then new ++ replaceFrom old new (old.length - 1) s
    else c :: replaceFrom old new 0 s

/-- Go `strings.ReplaceAll(s, old, new)` for a non-empty `old` (the only use in
the client): every non-overlapping occurrence of `old` in `s`, taken left to
right, is replaced by `new`. -/
def ReplaceAll (s old new : GoString) : GoString :=
  replaceFrom old new 0 s

/-- Go `strings.Contains(s, sub)`: `sub` occurs somewhere in `s`. -/
def Contains : GoString → GoString → Bool
  | [], sub => hasPrefix [] sub
  | c :: s, sub => hasPrefix (c :: s) sub || Contains s sub

/-- Scanning loop of `strings.Split`: `cur` is the part being collected, `skip`
the bytes of the separator just matched that are still to be passed over. -/
def splitFrom (sep : GoString) : Nat → GoString → GoString → List GoString
  | _, cur, [] => [cur]
  | skip + 1, cur, _ :: s => splitFrom sep skip cur s
  | 0, cur, c :: s =>
    if hasPrefix (c :: s) sep then cur :: splitFrom sep (sep.length - 1) [] s
    else splitFrom sep 0 (cur ++ [c]) s

/-- Go `strings.Split(s, sep)` for a non-empty `sep` (the only use in the
client): the parts of `s` between consecutive non-overlapping occurrences of
`sep`; one more part than there are occurrences. -/
def Split (s sep : GoString) : List GoString :=
  splitFrom sep 0 [] s

/-! ## `fmt.Sprintf` and `fmt.Errorf` -/

/-- Decimal digits of a natural number, most significant first. -/
def natDigits (n : Nat) : GoString :=
  lit (String.mk (Nat.toDigits 10 n))

/-- Go `%d` applied to an `int`. -/
def fmtInt : Int → GoString
  | Int.ofNat n => natDigits n
  | Int.negSucc n => lit "-" ++ natDigits (n + 1)

/-- An operand of `fmt.Sprintf` / `fmt.Errorf`: a string, an `int`, or an error
value (represented by its message). -/
inductive Arg where
  | str (s : GoString)
  | int (i : Int)
  | err (e : GoString)
deriving DecidableEq, Repr

/-- The text a verb produces for an operand.  `%s` prints a string or the
message of an error, `%d` an integer in decimal, `%w` the message of an error;
these are the only combinations the client uses.  Any other combination is
rendered as the bad-verb marker `%!` followed by the verb. -/
def formatVerb (verb : Byte) (a : Arg) : GoString :=
  match a with
  | Arg.str s => if verb = 115 then s else lit "%!" ++ [verb]
  | Arg.int i => if verb = 100 then fmtInt i else lit "%!" ++ [verb]
  | Arg.err e => if verb = 115 ∨ verb = 119 then e else lit "%!" ++ [verb]

/-- Go `fmt.Sprintf(format, args...)` restricted to plain verbs (no flags, width
or precision, none of which the client uses): text is copied, `%%` is a percent
sign, and each verb consumes the next operand.  A verb with no operand left
prints `%!v(MISSING)` for verb `v`, a percent sign at the very end prints
`%!(NOVERB)`; operands left over are not printed (the client passes none). -/
def Sprintf : GoString → List Arg → GoString
  | [], _ => []
  | [c], _ => if c = 37 then lit "%!(NOVERB)" else [c]
  | c :: d :: rest, args =>
    if c = 37 then
      if d = 37 then (37 : Byte) :: Sprintf rest args
      else
        match args with
        | [] => lit "%!" ++ [d] ++ lit "(MISSING)" ++ Sprintf rest []
        | a :: more => formatVerb d a ++ Sprintf rest more
    else c :: Sprintf (d :: rest) args

/-! ## Data model of the client -/

/-- Configuration for the Jenkins connection (`JenkinsConfig`). -/
structure JenkinsConfig where
  JenkinsURL : GoString
  GitBaseURL : GoString
  JenkinsUsername : GoString
  JenkinsPassword : GoString
  APIToken : GoString
deriving DecidableEq, Repr

/-- The Jenkins client (`JenkinsClient`); its HTTP client is part of the
environment. -/
structure JenkinsClient where
  Config : JenkinsConfig
  BaseURL : GoString
deriving DecidableEq, Repr

/-- Parameters for job creation (`JobParams`). -/
structure JobParams where
  ProductName : GoString
  GitRepo : GoString
  GitBranch : GoString
  HelmDeploy : GoString
deriving DecidableEq, Repr

/-- Go `NewClient`: the base URL is the configured Jenkins URL. -/
def NewClient (config : JenkinsConfig) : JenkinsClient :=
  { Config := config, BaseURL := config.JenkinsURL }

/-- Go `BuildGitURL`: `fmt.Sprintf("%s/%s/%s.git", GitBaseURL, customFolder, repoName)`. -/
def BuildGitURL (j : JenkinsClient) (customFolder repoName : GoString) : GoString :=
  Sprintf (lit "%s/%s/%s.git")
    [Arg.str j.Config.GitBaseURL, Arg.str customFolder, Arg.str repoName]

/-- The four replacements of `AddNewJob` (source lines 164 to 168), in source
order. -/
def renderTemplate (pipelineScript : GoString) (params : JobParams) : GoString :=
  let scriptContent := pipelineScript
  let scriptContent := ReplaceAll scriptContent (lit "\x7b\x7bPRODUCT_NAME\x7d\x7d") params.ProductName
  let scriptContent := ReplaceAll scriptContent (lit "\x7b\x7bGIT_REPO\x7d\x7d") params.GitRepo
  let scriptContent := ReplaceAll scriptContent (lit "\x7b\x7bGIT_BRANCH\x7d\x7d") params.GitBranch
  let scriptContent := ReplaceAll scriptContent (lit "\x7b\x7bHELM_DEPLOY\x7d\x7d") params.HelmDeploy
  scriptContent

/-! ## `encoding/base64` -/

/-- The alphabet of `base64.StdEncoding`. -/
def encodeStd : GoString :=
  lit "ABCDEFGHIJKLMNOPQRSTUVWXYZabcdefghijklmnopqrstuvwxyz0123456789+/"

/-- The padding character of `base64.StdEncoding`, `=`. -/
def StdPadding : Byte := 61

/-- The alphabet character of a six-bit value (`enc.encode[v & 0x3F]`). -/
def encChar (v : Nat) : Byte :=
  encodeStd.getD (v % 64) StdPadding

/-- Go `base64.StdEncoding.EncodeToString`: each group of three bytes is packed
into a 24-bit value and written as four alphabet characters; a final group of
one or two bytes is written as two or three characters followed by padding. -/
def EncodeToString : List Byte → GoString
  | [] => []
  | [a] =>
    let val := a.val * 65536
    [encChar (val / 262144), encChar (val / 4096), StdPadding, StdPadding]
  | [a, b] =>
    let val := a.val * 65536 + b.val * 256
    [encChar (val / 262144), encChar (val / 4096), encChar (val / 64), StdPadding]
  | a :: b :: c :: rest =>
    let val := a.val * 65536 + b.val * 256 + c.val
    encChar (val / 262144) :: encChar (val / 4096) :: encChar (val / 64) :: encChar val ::
      EncodeToString rest

/-- The byte with the given value modulo 256. -/
def byteOf (n : Nat) : Byte := ⟨n % 256, Nat.mod_lt _ (by decide)⟩

/-- The six-bit value of an alphabet character, if it is one. -/
def decChar (c : Byte) : Option Nat :=
  let i := encodeStd.indexOf c
  if i < 64 then some i else none

/-- Decoding of one group of four characters (RFC 4648, section 4).  Padding is
accepted only in the last group (`last`), as `xx==` or `xxx=`. -/
def decodeQuantum (c0 c1 c2 c3 : Byte) (last : Bool) : Option (List Byte) :=
  match decChar c0, decChar c1 with
  | some i0, some i1 =>
    if last ∧ c2 = StdPadding ∧ c3 = StdPadding then
      some [byteOf ((i0 * 262144 + i1 * 4096) / 65536)]
    else
      match decChar c2 with
      | none => none
      | some i2 =>
        if last ∧ c3 = StdPadding then
          let val := i0 * 262144 + i1 * 4096 + i2 * 64
          some [byteOf (val / 65536), byteOf (val / 256)]
        else
          match decChar c3 with
          | none => none
          | some i3 =>
            let val := i0 * 262144 + i1 * 4096 + i2 * 64 + i3
            some [byteOf (val / 65536), byteOf (val / 256), byteOf val]
  | _, _ => none

/-- Standard base64 decoding with padding: the inverse direction of
`EncodeToString`, used to state what the authorization header decodes to. -/
def DecodeString : GoString → Option (List Byte)
  | [] => some []
  | c0 :: c1 :: c2 :: c3 :: rest =>
    match decodeQuantum c0 c1 c2 c3 rest.isEmpty, DecodeString rest with
    | some bs, some more => some (bs ++ more)
    | _, _ => none
  | _ => none

/-! ## The environment: files, URL parsing, HTTP -/

/-- An outgoing HTTP request: method, URL text, headers in the order they were
set, and body. -/
structure Request where
  Method : GoString
  URL : GoString
  Header : List (GoString × GoString)
  Body : GoString
deriving DecidableEq, Repr

/-- An HTTP response as the client reads it: the status code, the bytes
`io.ReadAll` obtains from the body, and the error `io.ReadAll` reports, if any. -/
structure Response where
  StatusCode : Int
  Body : GoString
  ReadErr : Option GoString
deriving DecidableEq, Repr

/-- The world outside the client.  `readFile` is `os.ReadFile`; `parseURL` gives
the error with which `http.NewRequest` rejects a URL, if it does; `roundTrip` is
`HTTPClient.Do`, answering a request given the requests sent before it in the
same operation, with either a transport error or a response. -/
structure Env where
  readFile : GoString → Except GoString GoString
  parseURL : GoString → Option GoString
  roundTrip : List Request → Request → Except GoString Response

/-- Go `http.NewRequest(method, url, body)`: fails when the URL does not parse. -/
def NewRequest (env : Env) (method url body : GoString) : Except GoString Request :=
  match env.parseURL url with
  | some e => Except.error e
  | none => Except.ok { Method := method, URL := url, Header := [], Body := body }

/-- Go `req.Header.Set(key, value)`: the value replaces any earlier value of the
key.  (Every key the client sets is already in canonical form.) -/
def Request.Set (req : Request) (key value : GoString) : Request :=
  { req with Header := req.Header.filter (fun kv => kv.1 ≠ key) ++ [(key, value)] }

/-- Go `req.Header.Get(key)`: the value of a header, absent when it was not set. -/
def Request.Get (req : Request) (key : GoString) : Option GoString :=
  (req.Header.find? (fun kv => kv.1 = key)).map (fun kv => kv.2)

/-! ## The client operations -/

/-- Go `getAuthHeader`: `"Basic "` followed by the base64 encoding of
`username:api_token`. -/
def getAuthHeader (j : JenkinsClient) : GoString :=
  let auth := j.Config.JenkinsUsername ++ lit ":" ++ j.Config.APIToken
  lit "Basic " ++ EncodeToString auth

/-- Go `TestConnection`: the returned error (`none` is `nil`) and the requests
sent. -/
def TestConnection (env : Env) (j : JenkinsClient) : Option GoString × List Request :=
  let url := j.BaseURL ++ lit "/api/json"
  match NewRequest env (lit "GET") url [] with
  | Except.error err => (some (Sprintf (lit "failed to create request: %w") [Arg.err err]), [])
  | Except.ok req =>
    let req := req.Set (lit "Authorization") (getAuthHeader j)
    let req := req.Set (lit "Content-Type") (lit "application/json")
    match env.roundTrip [] req with
    | Except.error err =>
      (some (Sprintf (lit "failed to connect to Jenkins: %w") [Arg.err err]), [req])
    | Except.ok resp =>
      if resp.StatusCode = 401 then
        (some (Sprintf (lit "authentication failed: invalid credentials") []), [req])
      else if resp.StatusCode ≠ 200 then
        let body := resp.Body
        (some (Sprintf (lit "jenkins returned status %d: %s")
          [Arg.int resp.StatusCode, Arg.str body]), [req])
      else (none, [req])

/-- The loop of `getCrumb` over the parts of the body (source lines 145 to 149):
`i` is the index of the first part of `rest` within `parts`. -/
def crumbLoop (parts : List GoString) : Nat → List GoString → Option GoString
  | _, [] => none
  | i, part :: rest =>
    if part = lit "crumb" ∧ i + 2 < parts.length then some (parts.getD (i + 2) [])
    else crumbLoop parts (i + 1) rest

/-- The textual crumb extraction of `getCrumb` (source lines 141 to 152) applied
to the body of a 200 response: header name, value, error. -/
def parseCrumb (bodyStr : GoString) : GoString × GoString × Option GoString :=
  if Contains bodyStr (lit "crumb") then
    let parts := Split bodyStr (lit "\"")
    match crumbLoop parts 0 parts with
    | some value => (lit "Jenkins-Crumb", value, none)
    | none => ([], [], none)
  else ([], [], none)

/-- Go `getCrumb`: header name, value and error, and the requests sent. -/
def getCrumb (env : Env) (j : JenkinsClient) :
    (GoString × GoString × Option GoString) × List Request :=
  let url := j.BaseURL ++ lit "/crumbIssuer/api/json"
  match NewRequest env (lit "GET") url [] with
  | Except.error err =>
    (([], [], some (Sprintf (lit "failed to create crumb request: %w") [Arg.err err])), [])
  | Except.ok req =>
    let req := req.Set (lit "Authorization") (getAuthHeader j)
    match env.roundTrip [] req with
    | Except.error err =>
      (([], [], some (Sprintf (lit "failed to get crumb: %w") [Arg.err err])), [req])
    | Except.ok resp =>
      if resp.StatusCode ≠ 200 then (([], [], none), [req])
      else
        match resp.ReadErr with
        | some err =>
          (([], [], some (Sprintf (lit "failed to read crumb response: %w") [Arg.err err])),
            [req])
        | none => (parseCrumb resp.Body, [req])

/-- The format of the job configuration document of `AddNewJob` (source lines
171 to 183). -/
def jobConfigFormat : GoString :=
  lit ("<?xml version='1.1' encoding='UTF-8'?>\n" ++
    "<flow-definition plugin=\"workflow-job\">\n" ++
    "  <actions/>\n" ++
    "  <description>Pipeline job created by MRTUX tool</description>\n" ++
    "  <keepDependencies>false</keepDependencies>\n" ++
    "  <properties/>\n" ++
    "  <definition class=\"org.jenkinsci.plugins.workflow.cps.CpsFlowDefinition\" plugin=\"workflow-cps\">\n" ++
    "    <script><![CDATA[%s]]></script>\n" ++
    "    <sandbox>true</sandbox>\n" ++
    "  </definition>\n" ++
    "  <triggers/>\n" ++
    "  <disabled>false</disabled>\n" ++
    "</flow-definition>")

/-- Go `AddNewJob`: the returned pair (message, error) and the requests sent, in
order. -/
def AddNewJob (env : Env) (j : JenkinsClient) (jobName templatePath : GoString)
    (params : JobParams) : (GoString × Option GoString) × List Request :=
  match env.readFile templatePath with
  | Except.error err =>
    (([], some (Sprintf (lit "failed to read template file: %w") [Arg.err err])), [])
  | Except.ok pipelineScript =>
    let scriptContent := renderTemplate pipelineScript params
    let jobConfig := Sprintf jobConfigFormat [Arg.str scriptContent]
    let url := Sprintf (lit "%s/createItem?name=%s") [Arg.str j.BaseURL, Arg.str jobName]
    match NewRequest env (lit "POST") url jobConfig with
    | Except.error err =>
      (([], some (Sprintf (lit "failed to create request: %w") [Arg.err err])), [])
    | Except.ok req =>
      let req := req.Set (lit "Authorization") (getAuthHeader j)
      let req := req.Set (lit "Content-Type") (lit "application/xml")
      let crumb := getCrumb env j
      let crumbHeader := crumb.1.1
      let crumbValue := crumb.1.2.1
      let err := crumb.1.2.2
      let req := if err = none ∧ crumbHeader ≠ [] then req.Set crumbHeader crumbValue else req
      match env.roundTrip crumb.2 req with
      | Except.error err =>
        (([], some (Sprintf (lit "failed to create job: %w") [Arg.err err])), crumb.2 ++ [req])
      | Except.ok resp =>
        let body := resp.Body
        if resp.StatusCode = 400 then
          (([], some (Sprintf (lit "job creation failed: job '%s' already exists or invalid config")
            [Arg.str jobName])), crumb.2 ++ [req])
        else if resp.StatusCode ≠ 200 ∧ resp.StatusCode ≠ 201 then
          (([], some (Sprintf (lit "jenkins returned status %d: %s")
            [Arg.int resp.StatusCode, Arg.str body])), crumb.2 ++ [req])
        else
          ((Sprintf (lit "Job '%s' created successfully") [Arg.str jobName], none),
            crumb.2 ++ [req])

/-! ## Requests and outcomes of the operations -/

/-- The part of the job configuration document before the script. -/
def envelopeHead : GoString :=
  lit ("<?xml version='1.1' encoding='UTF-8'?>\n" ++
    "<flow-definition plugin=\"workflow-job\">\n" ++
    "  <actions/>\n" ++
    "  <description>Pipeline job created by MRTUX tool</description>\n" ++
    "  <keepDependencies>false</keepDependencies>\n" ++
    "  <properties/>\n" ++
    "  <definition class=\"org.jenkinsci.plugins.workflow.cps.CpsFlowDefinition\" plugin=\"workflow-cps\">\n" ++
    "    <script><![CDATA[")

/-- The part of the job configuration document after the script. -/
def envelopeTail : GoString :=
  lit ("]]></script>\n" ++
    "    <sandbox>true</sandbox>\n" ++
    "  </definition>\n" ++
    "  <triggers/>\n" ++
    "  <disabled>false</disabled>\n" ++
    "</flow-definition>")

/-- The classification of the outcome of the createItem POST (source lines 203
to 219), as a function of that outcome. -/
def createOutcome (jobName : GoString) : Except GoString Response → GoString × Option GoString
  | Except.error err => ([], some (lit "failed to create job: " ++ err))
  | Except.ok resp =>
    if resp.StatusCode = 400 then
      ([], some (lit "job creation failed: job '" ++ jobName ++
        lit "' already exists or invalid config"))
    else if resp.StatusCode ≠ 200 ∧ resp.StatusCode ≠ 201 then
      ([], some (lit "jenkins returned status " ++ fmtInt resp.StatusCode ++ lit ": " ++ resp.Body))
    else (lit "Job '" ++ jobName ++ lit "' created successfully", none)

/-- The createItem request before the crumb step: method, URL, body and the two
fixed headers. -/
def createItemBase (j : JenkinsClient) (jobName script : GoString) (params : JobParams) :
    Request :=
  { Method := lit "POST"
    URL := j.BaseURL ++ lit "/createItem?name=" ++ jobName
    Header := [(lit "Authorization", getAuthHeader j), (lit "Content-Type", lit "application/xml")]
    Body := envelopeHead ++ renderTemplate script params ++ envelopeTail }

/-- The createItem request after the crumb step. -/
def createItemFinal (j : JenkinsClient) (jobName script : GoString) (params : JobParams)
    (crumb : GoString × GoString × Option GoString) : Request :=
  if crumb.2.2 = none ∧ crumb.1 ≠ [] then
    (createItemBase j jobName script params).Set crumb.1 crumb.2.1
  else createItemBase j jobName script params

/-- The crumb-issuer request: a GET with the authorization header only. -/
def crumbRequest (j : JenkinsClient) : Request :=
  { Method := lit "GET"
    URL := j.BaseURL ++ lit "/crumbIssuer/api/json"
    Header := [(lit "Authorization", getAuthHeader j)]
    Body := [] }

/-- The result of `getCrumb` as a function of the outcome of its GET (source
lines 124 to 152). -/
def crumbOutcome : Except GoString Response → GoString × GoString × Option GoString
  | Except.error err => ([], [], some (Sprintf (lit "failed to get crumb: %w") [Arg.err err]))
  | Except.ok resp =>
    if resp.StatusCode ≠ 200 then ([], [], none)
    else
      match resp.ReadErr with
      | some err => ([], [], some (Sprintf (lit "failed to read crumb response: %w") [Arg.err err]))
      | none => parseCrumb resp.Body

/-- The connectivity request: a GET of `{base}/api/json` with the authorization
and content-type headers. -/
def connectionRequest (j : JenkinsClient) : Request :=
  { Method := lit "GET"
    URL := j.BaseURL ++ lit "/api/json"
    Header := [(lit "Authorization", getAuthHeader j), (lit "Content-Type", lit "application/json")]
    Body := [] }

/-! ## Specification-side notions: crumb shape, query encoding, substitution -/

/-- The first part that is exactly `crumb` and has at least two parts after it
selects the part two positions later. -/
def firstCrumbValue : List GoString → Option GoString
  | p :: q :: r :: rest => if p = lit "crumb" then some r else firstCrumbValue (q :: r :: rest)
  | _ => none

/-- A part made of a colon and blanks only: what stands between a quoted key and
its quoted value. -/
def isColon (q : GoString) : Bool :=
  q.filter (fun c => c ≠ 32 ∧ c ≠ 9 ∧ c ≠ 10 ∧ c ≠ 13) = [58]

/-- The crumb field in the expected shape, read off the quote-split body: a part
`crumb`, then a colon, then the quoted value. -/
def quotedCrumbField : List GoString → Option GoString
  | p :: q :: r :: rest =>
    if p = lit "crumb" ∧ isColon q then some r else quotedCrumbField (q :: r :: rest)
  | _ => none

/-- The crumb-issuer body of Jenkins for the crumb value `v`. -/
def standardCrumbBody (v : GoString) : GoString :=
  lit "\x7b\"_class\":\"hudson.security.csrf.DefaultCrumbIssuer\",\"crumb\":\"" ++ v ++
    lit "\",\"crumbRequestField\":\"Jenkins-Crumb\"\x7d"

/-- Characters that query-percent-encoding leaves as they are: ASCII letters,
digits, and `-`, `_`, `.`, `~` (RFC 3986 unreserved characters). -/
def unreserved (c : Byte) : Bool :=
  (65 ≤ c.val && c.val ≤ 90) || (97 ≤ c.val && c.val ≤ 122) || (48 ≤ c.val && c.val ≤ 57) ||
    c = 45 || c = 95 || c = 46 || c = 126

/-- The hexadecimal digits used by percent-encoding. -/
def upperhex : GoString := lit "0123456789ABCDEF"

/-- Query-percent-encoding of one byte: unreserved characters stay, a space
becomes `+`, every other byte becomes `%XX`. -/
def escapeByte (c : Byte) : GoString :=
  if unreserved c then [c]
  else if c = 32 then [43]
  else [37, upperhex.getD (c.val / 16) 0, upperhex.getD (c.val % 16) 0]

/-- Query-percent-encoding of a string (what `url.QueryEscape` computes). -/
def QueryEscape : GoString → GoString
  | [] => []
  | c :: s => escapeByte c ++ QueryEscape s

/-- The value of a hexadecimal digit. -/
def unhex (c : Byte) : Option Nat :=
  if 48 ≤ c.val ∧ c.val ≤ 57 then some (c.val - 48)
  else if 65 ≤ c.val ∧ c.val ≤ 70 then some (c.val - 55)
  else if 97 ≤ c.val ∧ c.val ≤ 102 then some (c.val - 87)
  else none

/-- Decoding of a query component: `+` is a space, `%XX` the byte with that
hexadecimal value; a malformed escape has no decoding. -/
def QueryUnescape : GoString → Option GoString
  | [] => some []
  | c :: rest =>
    if c = 37 then
      match rest with
      | h1 :: h2 :: more =>
        match unhex h1, unhex h2, QueryUnescape more with
        | some a, some b, some r => some (byteOf (a * 16 + b) :: r)
        | _, _, _ => none
      | _ => none
    else if c = 43 then (QueryUnescape rest).map (fun r => (32 : Byte) :: r)
    else (QueryUnescape rest).map (fun r => c :: r)

/-- The raw query of a URL: the text after the first `?`, without the fragment
that starts at the first `#`. -/
def rawQuery (url : GoString) : GoString :=
  ((url.takeWhile (fun c => c ≠ 35)).dropWhile (fun c => c ≠ 63)).drop 1

/-- The decoded value of a `key=value` pair when its decoded key is `key`. -/
def pairValue (key pair : GoString) : Option GoString :=
  if QueryUnescape (pair.takeWhile (fun c => c ≠ 61)) = some key then
    QueryUnescape ((pair.dropWhile (fun c => c ≠ 61)).drop 1)
  else none

/-- The decoded value of the first parameter named `key` in a raw query whose
pairs are separated by `&`. -/
def queryParam (key query : GoString) : Option GoString :=
  (Split query (lit "&")).findSome? (pairValue key)

/-! ## A concrete world: the end-to-end scenario -/

/-- The configuration of the end-to-end scenario: user `bob`, token `t0k`. -/
def demoConfig : JenkinsConfig :=
  { JenkinsURL := lit "https://ci.example.com"
    GitBaseURL := lit "https://git.example.com"
    JenkinsUsername := lit "bob"
    JenkinsPassword := []
    APIToken := lit "t0k" }

/-- The client of the end-to-end scenario. -/
def demoClient : JenkinsClient := NewClient demoConfig

/-- A world with one template made of `{{PRODUCT_NAME}}` only, in which every URL
parses, every GET gets the outcome `get` and every other request the outcome
`post`. -/
def demoEnv (get post : Except GoString Response) : Env :=
  { readFile := fun _ => Except.ok (lit "\x7b\x7bPRODUCT_NAME\x7d\x7d")
    parseURL := fun _ => none
    roundTrip := fun _ req => if req.Method = lit "GET" then get else post }

/-- A Jenkins without a crumb issuer that knows the job names `existing`: every
URL parses, every GET is answered with 404, and a createItem POST is answered
with 400 when its URL names an existing job and with 201 otherwise. -/
def jobsEnv (existing : List GoString) : Env :=
  { readFile := fun _ => Except.ok (lit "\x7b\x7bPRODUCT_NAME\x7d\x7d")
    parseURL := fun _ => none
    roundTrip := fun _ req =>
      if req.Method = lit "POST" then
        if existing.any (fun name =>
            req.URL == demoConfig.JenkinsURL ++ lit "/createItem?name=" ++ name) then
          Except.ok ⟨400, lit "A job already exists with the name demo", none⟩
        else Except.ok ⟨201, [], none⟩
      else Except.ok ⟨404, [], none⟩ }

/-! ## Templates as pieces -/

/-- The four placeholders of a pipeline template. -/
inductive Placeholder where
  | productName
  | gitRepo
  | gitBranch
  | helmDeploy
deriving DecidableEq, Repr

/-- The token that marks a placeholder in a template. -/
def Placeholder.token : Placeholder → GoString
  | Placeholder.productName => lit "\x7b\x7bPRODUCT_NAME\x7d\x7d"
  | Placeholder.gitRepo => lit "\x7b\x7bGIT_REPO\x7d\x7d"
  | Placeholder.gitBranch => lit "\x7b\x7bGIT_BRANCH\x7d\x7d"
  | Placeholder.helmDeploy => lit "\x7b\x7bHELM_DEPLOY\x7d\x7d"

/-- The field of the parameter bundle that belongs to a placeholder. -/
def Placeholder.value (params : JobParams) : Placeholder → GoString
  | Placeholder.productName => params.ProductName
  | Placeholder.gitRepo => params.GitRepo
  | Placeholder.gitBranch => params.GitBranch
  | Placeholder.helmDeploy => params.HelmDeploy

/-- One left-to-right pass over a template that replaces each placeholder token
where it stands by its field and copies every other byte; the substituted
values are not looked at again. -/
def substituteFrom (params : JobParams) : Nat → GoString → GoString
  | _, [] => []
  | skip + 1, _ :: s => substituteFrom params skip s
  | 0, c :: s =>
    if hasPrefix (c :: s) Placeholder.productName.token then
      params.ProductName ++ substituteFrom params (Placeholder.productName.token.length - 1) s
    else if hasPrefix (c :: s) Placeholder.gitRepo.token then
      params.GitRepo ++ substituteFrom params (Placeholder.gitRepo.token.length - 1) s
    else if hasPrefix (c :: s) Placeholder.gitBranch.token then
      params.GitBranch ++ substituteFrom params (Placeholder.gitBranch.token.length - 1) s
    else if hasPrefix (c :: s) Placeholder.helmDeploy.token then
      params.HelmDeploy ++ substituteFrom params (Placeholder.helmDeploy.token.length - 1) s
    else c :: substituteFrom params 0 s

/-- Total substitution as the specification words it: the template with every
occurrence of the four tokens replaced by the corresponding field and nothing
else altered. -/
def substitutePlaceholders (template : GoString) (params : JobParams) : GoString :=
  substituteFrom params 0 template

/-- A piece of a template: literal text or a placeholder token. -/
inductive Piece where
  | text (s : GoString)
  | hole (k : Placeholder)
deriving DecidableEq, Repr

/-- The template text of a piece. -/
def Piece.source : Piece → GoString
  | Piece.text s => s
  | Piece.hole k => k.token

/-- The piece after substitution: text stays, a placeholder becomes its field. -/
def Piece.filled (params : JobParams) : Piece → GoString
  | Piece.text s => s
  | Piece.hole k => k.value params

/-- The template made of a list of pieces. -/
def templateText : List Piece → GoString
  | [] => []
  | p :: ps => p.source ++ templateText ps

/-- The pieces with every placeholder replaced by its field. -/
def filledText (params : JobParams) : List Piece → GoString
  | [] => []
  | p :: ps => p.filled params ++ filledText params ps

/-- Every opening brace of the text is followed, within the text, by a byte other
than an opening brace: the text has no `{{` and does not end in `{`. -/
def braceSafe : GoString → Bool
  | [] => true
  | [c] => c ≠ 123
  | c :: d :: s => (c ≠ 123 || d ≠ 123) && braceSafe (d :: s)

/-- The effect of one replacement pass on a piece. -/
def Piece.fill (k : Placeholder) (v : GoString) : Piece → Piece
  | Piece.text s => Piece.text s
  | Piece.hole j => if j = k then Piece.text v else Piece.hole j

/-- Every text piece is brace-safe. -/
def piecesSafe : List Piece → Bool
  | [] => true
  | Piece.text s :: ps => braceSafe s && piecesSafe ps
  | Piece.hole _ :: ps => piecesSafe ps

/-! ## Evaluation of the formats of the client -/

theorem sprintf_gitURL (b f r : GoString) :
    Sprintf (lit "%s/%s/%s.git") [Arg.str b, Arg.str f, Arg.str r]
      = b ++ lit "/" ++ f ++ lit "/" ++ r ++ lit ".git" := by
  simp [Sprintf, lit, formatVerb]

theorem sprintf_createItemURL (base jobName : GoString) :
    Sprintf (lit "%s/createItem?name=%s") [Arg.str base, Arg.str jobName]
      = base ++ lit "/createItem?name=" ++ jobName := by
  simp [Sprintf, lit, formatVerb]

/-- A format without a percent sign is printed as it is. -/
theorem sprintf_plain (s : GoString) (args : List Arg) (h : (37 : Byte) ∉ s) :
    Sprintf s args = s := by
  induction s with
  | nil => simp [Sprintf]
  | cons c s ih =>
    have hc : c ≠ 37 := fun e => h (by simp [e])
    have hs : (37 : Byte) ∉ s := fun e => h (by simp [e])
    cases s with
    | nil => simp [Sprintf, hc]
    | cons d rest => simp [Sprintf, hc, ih hs]

/-- Text without a percent sign in front of a verb is copied, then the verb
consumes the first operand. -/
theorem sprintf_text_verb (pre post : GoString) (d : Byte) (a : Arg) (args : List Arg)
    (h : (37 : Byte) ∉ pre) (hd : d ≠ 37) :
    Sprintf (pre ++ 37 :: d :: post) (a :: args) = pre ++ formatVerb d a ++ Sprintf post args := by
  induction pre with
  | nil => simp [Sprintf, hd]
  | cons c s ih =>
    have hc : c ≠ 37 := fun e => h (by simp [e])
    have hs : (37 : Byte) ∉ s := fun e => h (by simp [e])
    cases s with
    | nil => simpa [Sprintf, hc] using ih hs
    | cons e rest => simpa [Sprintf, hc] using ih hs

theorem jobConfigFormat_eq :
    jobConfigFormat = envelopeHead ++ 37 :: 115 :: envelopeTail := by
  decide

theorem sprintf_jobConfig (script : GoString) :
    Sprintf jobConfigFormat [Arg.str script] = envelopeHead ++ script ++ envelopeTail := by
  rw [jobConfigFormat_eq, sprintf_text_verb _ _ _ _ _ (by decide) (by decide),
    sprintf_plain _ _ (by decide)]
  simp [formatVerb]

/-- A format with one verb and no other percent sign. -/
theorem sprintf_one (pre post : GoString) (d : Byte) (a : Arg) (h : (37 : Byte) ∉ pre)
    (hp : (37 : Byte) ∉ post) (hd : d ≠ 37) :
    Sprintf (pre ++ 37 :: d :: post) [a] = pre ++ formatVerb d a ++ post := by
  rw [sprintf_text_verb pre post d a [] h hd, sprintf_plain post [] hp]

theorem sprintf_createFailed (err : GoString) :
    Sprintf (lit "failed to create job: %w") [Arg.err err] = lit "failed to create job: " ++ err := by
  have e : lit "failed to create job: %w" = lit "failed to create job: " ++ 37 :: 119 :: [] := by
    decide
  rw [e, sprintf_one _ _ _ _ (by decide) (by decide) (by decide)]
  simp [formatVerb]

theorem sprintf_jobExists (jobName : GoString) :
    Sprintf (lit "job creation failed: job '%s' already exists or invalid config")
      [Arg.str jobName]
      = lit "job creation failed: job '" ++ jobName ++ lit "' already exists or invalid config" := by
  have e : lit "job creation failed: job '%s' already exists or invalid config"
      = lit "job creation failed: job '" ++ 37 :: 115 :: lit "' already exists or invalid config" := by
    decide
  rw [e, sprintf_one _ _ _ _ (by decide) (by decide) (by decide)]
  simp [formatVerb]

theorem sprintf_status (code : Int) (body : GoString) :
    Sprintf (lit "jenkins returned status %d: %s") [Arg.int code, Arg.str body]
      = lit "jenkins returned status " ++ fmtInt code ++ lit ": " ++ body := by
  have e : lit "jenkins returned status %d: %s"
      = lit "jenkins returned status " ++ 37 :: 100 :: (lit ": " ++ 37 :: 115 :: []) := by
    decide
  rw [e, sprintf_text_verb _ _ _ _ _ (by decide) (by decide),
    sprintf_one _ _ _ _ (by decide) (by decide) (by decide)]
  simp [formatVerb]

theorem sprintf_created (jobName : GoString) :
    Sprintf (lit "Job '%s' created successfully") [Arg.str jobName]
      = lit "Job '" ++ jobName ++ lit "' created successfully" := by
  have e : lit "Job '%s' created successfully"
      = lit "Job '" ++ 37 :: 115 :: lit "' created successfully" := by
    decide
  rw [e, sprintf_one _ _ _ _ (by decide) (by decide) (by decide)]
  simp [formatVerb]

/-! ## The shape of a run of `AddNewJob` -/

/-- A run of `AddNewJob` whose template is readable and whose createItem URL is
accepted: the crumb step runs, then the createItem request is sent after the
crumb requests, and the result is the classification of its outcome. -/
theorem AddNewJob_run (env : Env) (j : JenkinsClient) (jobName templatePath script : GoString)
    (params : JobParams) (hread : env.readFile templatePath = Except.ok script)
    (hurl : env.parseURL (j.BaseURL ++ lit "/createItem?name=" ++ jobName) = none) :
    AddNewJob env j jobName templatePath params =
      (createOutcome jobName (env.roundTrip (getCrumb env j).2
          (createItemFinal j jobName script params (getCrumb env j).1)),
        (getCrumb env j).2 ++ [createItemFinal j jobName script params (getCrumb env j).1]) := by
  simp only [AddNewJob, hread, sprintf_createItemURL, NewRequest, hurl, sprintf_jobConfig,
    sprintf_createFailed, sprintf_jobExists, sprintf_status, sprintf_created]
  have hbase : Request.Set (Request.Set (Request.mk (lit "POST")
      (j.BaseURL ++ lit "/createItem?name=" ++ jobName) []
      (envelopeHead ++ renderTemplate script params ++ envelopeTail))
      (lit "Authorization") (getAuthHeader j)) (lit "Content-Type") (lit "application/xml")
      = createItemBase j jobName script params := by
    have hne : lit "Authorization" ≠ lit "Content-Type" := by decide
    simp [Request.Set, createItemBase, List.filter, hne]
  rw [hbase]
  simp only [createItemFinal]
  generalize env.roundTrip _ _ = out
  cases out with
  | error e => simp [createOutcome]
  | ok resp =>
    simp only [createOutcome]
    split_ifs <;> rfl

/-! ## The shape of a run of `getCrumb` -/

/-- A run of `getCrumb` whose URL is rejected sends nothing and returns an
error. -/
theorem getCrumb_rejected (env : Env) (j : JenkinsClient) (e : GoString)
    (hp : env.parseURL (j.BaseURL ++ lit "/crumbIssuer/api/json") = some e) :
    getCrumb env j =
      (([], [], some (Sprintf (lit "failed to create crumb request: %w") [Arg.err e])), []) := by
  simp only [getCrumb, NewRequest, hp]

/-- A run of `getCrumb` whose URL is accepted sends the crumb-issuer request and
returns what the outcome of that request determines. -/
theorem getCrumb_run (env : Env) (j : JenkinsClient)
    (hp : env.parseURL (j.BaseURL ++ lit "/crumbIssuer/api/json") = none) :
    getCrumb env j = (crumbOutcome (env.roundTrip [] (crumbRequest j)), [crumbRequest j]) := by
  have hreq : Request.Set (Request.mk (lit "GET") (j.BaseURL ++ lit "/crumbIssuer/api/json") [] [])
      (lit "Authorization") (getAuthHeader j) = crumbRequest j := by
    simp [Request.Set, crumbRequest]
  simp only [getCrumb, NewRequest, hp, hreq]
  cases env.roundTrip [] (crumbRequest j) with
  | error e => rfl
  | ok resp =>
    simp only [crumbOutcome]
    split_ifs
    · rfl
    · cases resp.ReadErr <;> rfl

/-- The header name of a crumb extraction is empty, or it is `Jenkins-Crumb` and
no error is returned with it. -/
theorem parseCrumb_header (body : GoString) :
    (parseCrumb body).1 = [] ∨
      ((parseCrumb body).1 = lit "Jenkins-Crumb" ∧ (parseCrumb body).2.2 = none) := by
  unfold parseCrumb
  split_ifs
  · cases h : crumbLoop (Split body (lit "\"")) 0 (Split body (lit "\"")) with
    | none => left; simp [h]
    | some v => right; simp [h]
  · exact Or.inl rfl

theorem crumbOutcome_header (out : Except GoString Response) :
    (crumbOutcome out).1 = [] ∨
      ((crumbOutcome out).1 = lit "Jenkins-Crumb" ∧ (crumbOutcome out).2.2 = none) := by
  cases out with
  | error e => exact Or.inl rfl
  | ok resp =>
    simp only [crumbOutcome]
    split_ifs
    · exact Or.inl rfl
    · cases h : resp.ReadErr with
      | some e => exact Or.inl rfl
      | none => exact parseCrumb_header resp.Body

/-- The requests `getCrumb` sends: none when its URL is rejected, otherwise the
crumb-issuer request alone. -/
theorem getCrumb_sent (env : Env) (j : JenkinsClient) :
    (getCrumb env j).2 =
      if env.parseURL (j.BaseURL ++ lit "/crumbIssuer/api/json") = none then [crumbRequest j]
      else [] := by
  cases hp : env.parseURL (j.BaseURL ++ lit "/crumbIssuer/api/json") with
  | some e => simp [getCrumb_rejected env j e hp]
  | none => simp [getCrumb_run env j hp]

/-- The header name `getCrumb` returns is empty, or it is `Jenkins-Crumb` and no
error is returned with it. -/
theorem getCrumb_header (env : Env) (j : JenkinsClient) :
    (getCrumb env j).1.1 = [] ∨
      ((getCrumb env j).1.1 = lit "Jenkins-Crumb" ∧ (getCrumb env j).1.2.2 = none) := by
  cases hp : env.parseURL (j.BaseURL ++ lit "/crumbIssuer/api/json") with
  | some e => rw [getCrumb_rejected env j e hp]; exact Or.inl rfl
  | none => rw [getCrumb_run env j hp]; exact crumbOutcome_header _

/-- When the crumb-issuer GET fails in transport or answers with a status other
than 200, `getCrumb` returns no header name. -/
theorem getCrumb_no_token (env : Env) (j : JenkinsClient)
    (hfail : ∀ resp, env.roundTrip [] (crumbRequest j) = Except.ok resp → resp.StatusCode ≠ 200) :
    (getCrumb env j).1.1 = [] := by
  cases hp : env.parseURL (j.BaseURL ++ lit "/crumbIssuer/api/json") with
  | some e => rw [getCrumb_rejected env j e hp]
  | none =>
    rw [getCrumb_run env j hp]
    cases hrt : env.roundTrip [] (crumbRequest j) with
    | error e => rfl
    | ok resp => simp [crumbOutcome, hfail resp hrt]

theorem createItemBase_no_crumb (j : JenkinsClient) (jobName script : GoString)
    (params : JobParams) :
    (createItemBase j jobName script params).Get (lit "Jenkins-Crumb") = none := by
  have h1 : lit "Authorization" ≠ lit "Jenkins-Crumb" := by decide
  have h2 : lit "Content-Type" ≠ lit "Jenkins-Crumb" := by decide
  simp [Request.Get, createItemBase, List.find?, h1, h2]

theorem set_get (req : Request) (key value : GoString) :
    (req.Set key value).Get key = some value := by
  simp only [Request.Get, Request.Set, List.find?_append]
  have : List.find? (fun kv => decide (kv.1 = key))
      (List.filter (fun kv => decide (kv.1 ≠ key)) req.Header) = none := by
    simp [List.find?_eq_none, List.mem_filter]
  simp [this]

theorem createItemFinal_method (j : JenkinsClient) (jobName script : GoString)
    (params : JobParams) (crumb : GoString × GoString × Option GoString) :
    (createItemFinal j jobName script params crumb).Method = lit "POST" := by
  unfold createItemFinal
  split_ifs <;> rfl

theorem createItemFinal_url (j : JenkinsClient) (jobName script : GoString)
    (params : JobParams) (crumb : GoString × GoString × Option GoString) :
    (createItemFinal j jobName script params crumb).URL
      = j.BaseURL ++ lit "/createItem?name=" ++ jobName := by
  unfold createItemFinal
  split_ifs <;> rfl

theorem createItemFinal_body (j : JenkinsClient) (jobName script : GoString)
    (params : JobParams) (crumb : GoString × GoString × Option GoString) :
    (createItemFinal j jobName script params crumb).Body
      = envelopeHead ++ renderTemplate script params ++ envelopeTail := by
  unfold createItemFinal
  split_ifs <;> rfl

theorem jobExists_ne_status (jobName body : GoString) (code : Int) :
    lit "job creation failed: job '" ++ jobName ++ lit "' already exists or invalid config"
      ≠ lit "jenkins returned status " ++ fmtInt code ++ lit ": " ++ body := by
  intro h
  have h2 := congrArg (fun l => l.get? 1) h
  have e1 : lit "job creation failed: job '" = 106 :: 111 :: lit "b creation failed: job '" := by
    decide
  have e2 : lit "jenkins returned status " = 106 :: 101 :: lit "nkins returned status " := by
    decide
  rw [e1, e2] at h2
  simp at h2

theorem created_ne_nil (jobName : GoString) :
    lit "Job '" ++ jobName ++ lit "' created successfully" ≠ [] := by
  have e1 : lit "Job '" = 74 :: lit "ob '" := by decide
  rw [e1]
  simp

/-- The classification of a createItem response by status code. -/
theorem createOutcome_classes (jobName : GoString) (resp : Response) :
    (createOutcome jobName (Except.ok resp)
        = ([], some (lit "job creation failed: job '" ++ jobName ++
            lit "' already exists or invalid config")) ↔ resp.StatusCode = 400) ∧
    (createOutcome jobName (Except.ok resp)
        = (lit "Job '" ++ jobName ++ lit "' created successfully", none)
        ↔ resp.StatusCode = 200 ∨ resp.StatusCode = 201) ∧
    (createOutcome jobName (Except.ok resp)
        = ([], some (lit "jenkins returned status " ++ fmtInt resp.StatusCode ++ lit ": " ++
            resp.Body))
        ↔ resp.StatusCode ≠ 400 ∧ resp.StatusCode ≠ 200 ∧ resp.StatusCode ≠ 201) ∧
    ¬ ((createOutcome jobName (Except.ok resp)).1 ≠ [] ∧
        (createOutcome jobName (Except.ok resp)).2 ≠ none) := by
  have hne := jobExists_ne_status jobName resp.Body resp.StatusCode
  have hnil := created_ne_nil jobName
  simp only [createOutcome]
  by_cases h400 : resp.StatusCode = 400
  · simp [h400] at hne ⊢
    exact hne
  · by_cases h200 : resp.StatusCode = 200
    · simp [h200]
    · by_cases h201 : resp.StatusCode = 201
      · simp [h201]
      · simp [h400, h200, h201]
        exact fun h => hne (by simpa using h.symm)

/-- A run of `AddNewJob` whose template cannot be read sends nothing. -/
theorem AddNewJob_unreadable (env : Env) (j : JenkinsClient) (jobName templatePath e : GoString)
    (params : JobParams) (hread : env.readFile templatePath = Except.error e) :
    (AddNewJob env j jobName templatePath params).2 = [] := by
  simp only [AddNewJob, hread]

/-- A run of `AddNewJob` whose createItem URL is rejected sends nothing. -/
theorem AddNewJob_rejected (env : Env) (j : JenkinsClient) (jobName templatePath e : GoString)
    (params : JobParams)
    (hurl : env.parseURL (j.BaseURL ++ lit "/createItem?name=" ++ jobName) = some e) :
    (AddNewJob env j jobName templatePath params).2 = [] := by
  unfold AddNewJob
  cases env.readFile templatePath with
  | error e => rfl
  | ok script => simp only [sprintf_createItemURL, NewRequest, hurl]

/-- The requests of a run of `AddNewJob`: nothing, or the requests of the crumb
step followed by the createItem request. -/
theorem AddNewJob_sent (env : Env) (j : JenkinsClient) (jobName templatePath : GoString)
    (params : JobParams) :
    (AddNewJob env j jobName templatePath params).2 = [] ∨
      ∃ script, env.readFile templatePath = Except.ok script ∧
        env.parseURL (j.BaseURL ++ lit "/createItem?name=" ++ jobName) = none ∧
        (AddNewJob env j jobName templatePath params).2
          = (getCrumb env j).2 ++ [createItemFinal j jobName script params (getCrumb env j).1] := by
  cases hread : env.readFile templatePath with
  | error e => exact Or.inl (AddNewJob_unreadable env j jobName templatePath e params hread)
  | ok script =>
    cases hurl : env.parseURL (j.BaseURL ++ lit "/createItem?name=" ++ jobName) with
    | some e => exact Or.inl (AddNewJob_rejected env j jobName templatePath e params hurl)
    | none =>
      refine Or.inr ⟨script, rfl, rfl, ?_⟩
      rw [AddNewJob_run env j jobName templatePath script params hread hurl]

theorem crumbRequest_ne_createItemFinal (j : JenkinsClient) (jobName script : GoString)
    (params : JobParams) (crumb : GoString × GoString × Option GoString) :
    crumbRequest j ≠ createItemFinal j jobName script params crumb := by
  intro h
  have hm := congrArg Request.Method h
  rw [createItemFinal_method] at hm
  revert hm
  simp only [crumbRequest]
  decide

/-! ## base64 round trip -/

theorem decChar_encChar_fin : ∀ i : Fin 64, decChar (encodeStd.getD i.val StdPadding) = some i.val := by
  decide

theorem encChar_ne_pad_fin : ∀ i : Fin 64, encodeStd.getD i.val StdPadding ≠ StdPadding := by
  decide

theorem decChar_encChar (v : Nat) : decChar (encChar v) = some (v % 64) :=
  decChar_encChar_fin ⟨v % 64, Nat.mod_lt _ (by decide)⟩

theorem encChar_ne_pad (v : Nat) : encChar v ≠ StdPadding :=
  encChar_ne_pad_fin ⟨v % 64, Nat.mod_lt _ (by decide)⟩

theorem byteOf_eq (n : Nat) (a : Byte) (h : n % 256 = a.val) : byteOf n = a :=
  Fin.ext h

theorem decodeQuantum_one (a : Byte) (last : Bool) (hl : last = true) :
    decodeQuantum (encChar (a.val * 65536 / 262144)) (encChar (a.val * 65536 / 4096))
      StdPadding StdPadding last = some [a] := by
  have ha := a.isLt
  simp only [decodeQuantum, decChar_encChar, hl, and_self, if_true]
  congr 2
  apply byteOf_eq
  omega

theorem decodeQuantum_two (a b : Byte) (last : Bool) (hl : last = true) :
    decodeQuantum (encChar ((a.val * 65536 + b.val * 256) / 262144))
      (encChar ((a.val * 65536 + b.val * 256) / 4096))
      (encChar ((a.val * 65536 + b.val * 256) / 64)) StdPadding last = some [a, b] := by
  have ha := a.isLt
  have hb := b.isLt
  simp only [decodeQuantum, decChar_encChar, hl, encChar_ne_pad, and_true, and_false, true_and,
    if_true, if_false]
  congr 2
  · apply byteOf_eq
    omega
  · congr 1
    apply byteOf_eq
    omega

theorem decodeQuantum_three (a b c : Byte) (last : Bool) :
    decodeQuantum (encChar ((a.val * 65536 + b.val * 256 + c.val) / 262144))
      (encChar ((a.val * 65536 + b.val * 256 + c.val) / 4096))
      (encChar ((a.val * 65536 + b.val * 256 + c.val) / 64))
      (encChar (a.val * 65536 + b.val * 256 + c.val)) last = some [a, b, c] := by
  have ha := a.isLt
  have hb := b.isLt
  have hc := c.isLt
  simp only [decodeQuantum, decChar_encChar, encChar_ne_pad, and_false, if_false]
  congr 2
  · apply byteOf_eq
    omega
  · congr 1
    · apply byteOf_eq
      omega
    · congr 1
      apply byteOf_eq
      omega

/-- Decoding inverts encoding on every byte sequence. -/
theorem decode_encode : ∀ bs : List Byte, DecodeString (EncodeToString bs) = some bs
  | [] => rfl
  | [a] => by
    simp only [EncodeToString, DecodeString]
    rw [decodeQuantum_one a [].isEmpty rfl]
    rfl
  | [a, b] => by
    simp only [EncodeToString, DecodeString]
    rw [decodeQuantum_two a b [].isEmpty rfl]
    rfl
  | a :: b :: c :: rest => by
    simp only [EncodeToString, DecodeString]
    rw [decodeQuantum_three a b c _, decode_encode rest]
    rfl

/-! ## The shape of a run of `TestConnection` -/

theorem sprintf_connectFailed (err : GoString) :
    Sprintf (lit "failed to connect to Jenkins: %w") [Arg.err err]
      = lit "failed to connect to Jenkins: " ++ err := by
  have e : lit "failed to connect to Jenkins: %w"
      = lit "failed to connect to Jenkins: " ++ 37 :: 119 :: [] := by
    decide
  rw [e, sprintf_one _ _ _ _ (by decide) (by decide) (by decide)]
  simp [formatVerb]

theorem sprintf_authFailed :
    Sprintf (lit "authentication failed: invalid credentials") []
      = lit "authentication failed: invalid credentials" :=
  sprintf_plain _ _ (by decide)

/-- A run of `TestConnection` whose URL is rejected sends nothing. -/
theorem TestConnection_rejected (env : Env) (j : JenkinsClient) (e : GoString)
    (hp : env.parseURL (j.BaseURL ++ lit "/api/json") = some e) :
    (TestConnection env j).2 = [] := by
  simp only [TestConnection, NewRequest, hp]

theorem connectionRequest_eq (j : JenkinsClient) :
    Request.Set (Request.Set (Request.mk (lit "GET") (j.BaseURL ++ lit "/api/json") [] [])
      (lit "Authorization") (getAuthHeader j)) (lit "Content-Type") (lit "application/json")
      = connectionRequest j := by
  have hne : lit "Authorization" ≠ lit "Content-Type" := by decide
  simp [Request.Set, connectionRequest, List.filter, hne]

/-- A run of `TestConnection` whose URL is accepted sends the connectivity
request alone. -/
theorem TestConnection_sent (env : Env) (j : JenkinsClient)
    (hp : env.parseURL (j.BaseURL ++ lit "/api/json") = none) :
    (TestConnection env j).2 = [connectionRequest j] := by
  simp only [TestConnection, NewRequest, hp, connectionRequest_eq]
  cases env.roundTrip [] (connectionRequest j) with
  | error e => rfl
  | ok resp =>
    simp only
    split_ifs <;> rfl

theorem TestConnection_error (env : Env) (j : JenkinsClient) (err : GoString)
    (hp : env.parseURL (j.BaseURL ++ lit "/api/json") = none)
    (hrt : env.roundTrip [] (connectionRequest j) = Except.error err) :
    (TestConnection env j).1 = some (lit "failed to connect to Jenkins: " ++ err) := by
  simp only [TestConnection, NewRequest, hp, connectionRequest_eq, hrt, sprintf_connectFailed]

theorem TestConnection_response (env : Env) (j : JenkinsClient) (resp : Response)
    (hp : env.parseURL (j.BaseURL ++ lit "/api/json") = none)
    (hrt : env.roundTrip [] (connectionRequest j) = Except.ok resp) :
    (TestConnection env j).1 =
      if resp.StatusCode = 401 then some (lit "authentication failed: invalid credentials")
      else if resp.StatusCode ≠ 200 then
        some (lit "jenkins returned status " ++ fmtInt resp.StatusCode ++ lit ": " ++ resp.Body)
      else none := by
  simp only [TestConnection, NewRequest, hp, connectionRequest_eq, hrt, sprintf_authFailed,
    sprintf_status]
  split_ifs <;> rfl

theorem authFailed_ne_status (body : GoString) (code : Int) :
    lit "authentication failed: invalid credentials"
      ≠ lit "jenkins returned status " ++ fmtInt code ++ lit ": " ++ body := by
  intro h
  have h2 := congrArg (fun l => l.get? 0) h
  have e1 : lit "authentication failed: invalid credentials"
      = 97 :: lit "uthentication failed: invalid credentials" := by
    decide
  have e2 : lit "jenkins returned status " = 106 :: lit "enkins returned status " := by
    decide
  rw [e1, e2] at h2
  simp at h2

theorem base_get_authorization (j : JenkinsClient) (jobName script : GoString)
    (params : JobParams) (crumb : GoString × GoString × Option GoString)
    (hc : crumb.1 = [] ∨ crumb.1 = lit "Jenkins-Crumb") :
    (createItemFinal j jobName script params crumb).Get (lit "Authorization")
      = some (getAuthHeader j) := by
  have h1 : lit "Authorization" ≠ lit "Jenkins-Crumb" := by decide
  have h2 : lit "Content-Type" ≠ lit "Jenkins-Crumb" := by decide
  unfold createItemFinal
  rcases hc with hc | hc
  · simp [hc, Request.Get, createItemBase]
  · split_ifs
    · simp [hc, Request.Get, Request.Set, createItemBase, List.filter, h1, h2]
    · simp [Request.Get, createItemBase]

/-! ## Splitting and crumb extraction -/

theorem hasPrefix_iff (s p : GoString) : hasPrefix s p = true ↔ p <+: s := by
  induction p generalizing s with
  | nil => simp [hasPrefix]
  | cons d p ih =>
    cases s with
    | nil => simp [hasPrefix]
    | cons c s =>
      simp only [hasPrefix, Bool.and_eq_true, beq_iff_eq, ih, List.cons_prefix_cons]
      constructor
      · rintro ⟨h1, h2⟩
        exact ⟨h1.symm, h2⟩
      · rintro ⟨h1, h2⟩
        exact ⟨h1.symm, h2⟩

theorem contains_iff (s sub : GoString) : Contains s sub = true ↔ sub <:+: s := by
  induction s with
  | nil =>
    simp only [Contains, hasPrefix_iff, List.prefix_nil, List.infix_nil]
  | cons c s ih =>
    simp only [Contains, Bool.or_eq_true, hasPrefix_iff, ih, List.infix_cons_iff]

theorem splitFrom_one (q c : Byte) (cur s : GoString) :
    splitFrom [q] 0 cur (c :: s) =
      if c = q then cur :: splitFrom [q] 0 [] s else splitFrom [q] 0 (cur ++ [c]) s := by
  simp [splitFrom, hasPrefix]

theorem splitFrom_infix (q : Byte) (s : GoString) :
    ∀ cur p, p ∈ splitFrom [q] 0 cur s → p <:+: cur ++ s := by
  induction s with
  | nil =>
    intro cur p hp
    simp only [splitFrom, List.mem_singleton] at hp
    subst hp
    simp
  | cons c s ih =>
    intro cur p hp
    rw [splitFrom_one] at hp
    split_ifs at hp with hc
    · rcases List.mem_cons.mp hp with h | h
      · subst h
        exact List.infix_append' [] p (c :: s)
      · have := ih [] p h
        simp only [List.nil_append] at this
        exact this.trans ((List.suffix_cons c s).isInfix.trans (List.suffix_append cur _).isInfix)
    · have := ih (cur ++ [c]) p hp
      simpa using this

theorem splitFrom_no_sep (q : Byte) (a : GoString) (h : q ∉ a) :
    ∀ cur, splitFrom [q] 0 cur a = [cur ++ a] := by
  induction a with
  | nil => intro cur; simp [splitFrom]
  | cons c a ih =>
    intro cur
    have hc : c ≠ q := fun e => h (by simp [e])
    have ha : q ∉ a := fun e => h (by simp [e])
    rw [splitFrom_one, if_neg hc, ih ha]
    simp

theorem splitFrom_to_sep (q : Byte) (a rest : GoString) (h : q ∉ a) :
    ∀ cur, splitFrom [q] 0 cur (a ++ q :: rest) = (cur ++ a) :: splitFrom [q] 0 [] rest := by
  induction a with
  | nil => intro cur; simp [splitFrom_one]
  | cons c a ih =>
    intro cur
    have hc : c ≠ q := fun e => h (by simp [e])
    have ha : q ∉ a := fun e => h (by simp [e])
    rw [List.cons_append, splitFrom_one, if_neg hc, ih ha]
    simp

/-- The loop of `getCrumb` finds the first part equal to `crumb` with two parts
after it. -/
theorem crumbLoop_eq (pre rest : List GoString) :
    crumbLoop (pre ++ rest) pre.length rest = firstCrumbValue rest := by
  induction rest generalizing pre with
  | nil => rfl
  | cons p rest ih =>
    have hstep := ih (pre ++ [p])
    simp only [List.append_assoc, List.singleton_append, List.length_append,
      List.length_singleton] at hstep
    unfold crumbLoop
    rw [hstep]
    match rest with
    | [] => simp [firstCrumbValue]
    | [q] => simp [firstCrumbValue]
    | q :: r :: more =>
      by_cases hp : p = lit "crumb"
      · have hlt : pre.length + 2 < (pre ++ p :: q :: r :: more).length := by
          simp only [List.length_append, List.length_cons]
          omega
        have hget : (pre ++ p :: q :: r :: more).getD (pre.length + 2) [] = r := by
          rw [List.getD_eq_getElem?_getD, List.getElem?_append_right (by omega)]
          simp
        rw [if_pos ⟨hp, hlt⟩, hget]
        simp [firstCrumbValue, hp]
      · simp [firstCrumbValue, hp]

theorem firstCrumbValue_mem (parts : List GoString) (v : GoString)
    (h : firstCrumbValue parts = some v) : lit "crumb" ∈ parts := by
  induction parts with
  | nil => simp [firstCrumbValue] at h
  | cons p rest ih =>
    match rest, ih, h with
    | [], _, h => simp [firstCrumbValue] at h
    | [q], _, h => simp [firstCrumbValue] at h
    | q :: r :: more, ih, h =>
      simp only [firstCrumbValue] at h
      split_ifs at h with hp
      · simp [hp]
      · exact List.mem_cons_of_mem _ (ih h)

/-- The textual extraction is the search for the first part `crumb` with two
parts after it; the containment test in front of it changes nothing. -/
theorem parseCrumb_eq (body : GoString) :
    parseCrumb body =
      match firstCrumbValue (Split body (lit "\"")) with
      | some value => (lit "Jenkins-Crumb", value, none)
      | none => ([], [], none) := by
  have hloop := crumbLoop_eq [] (Split body (lit "\""))
  simp only [List.nil_append, List.length_nil] at hloop
  unfold parseCrumb
  simp only [hloop]
  split_ifs with hc
  · rfl
  · cases hv : firstCrumbValue (Split body (lit "\"")) with
    | none => rfl
    | some v =>
      exfalso
      apply hc
      rw [contains_iff]
      have hm := firstCrumbValue_mem _ v hv
      have hq : lit "\"" = [(34 : Byte)] := by decide
      have := splitFrom_infix 34 body [] (lit "crumb") (by rw [← hq]; exact hm)
      simpa using this

theorem parseCrumb_standard (v : GoString) (hv : (34 : Byte) ∉ v) :
    parseCrumb (standardCrumbBody v) = (lit "Jenkins-Crumb", v, none) := by
  have hq : lit "\"" = [(34 : Byte)] := by decide
  have hsplit : Split (standardCrumbBody v) (lit "\"") =
      [lit "\x7b", lit "_class", lit ":", lit "hudson.security.csrf.DefaultCrumbIssuer", lit ",",
        lit "crumb", lit ":", v, lit ",", lit "crumbRequestField", lit ":", lit "Jenkins-Crumb",
        lit "\x7d"] := by
    have e1 : lit "\x7b\"_class\":\"hudson.security.csrf.DefaultCrumbIssuer\",\"crumb\":\""
        = lit "\x7b" ++ 34 :: (lit "_class" ++ 34 :: (lit ":" ++ 34 ::
          (lit "hudson.security.csrf.DefaultCrumbIssuer" ++ 34 :: (lit "," ++ 34 ::
          (lit "crumb" ++ 34 :: (lit ":" ++ 34 :: [])))))) := by
      decide
    have e2 : lit "\",\"crumbRequestField\":\"Jenkins-Crumb\"\x7d"
        = 34 :: (lit "," ++ 34 :: (lit "crumbRequestField" ++ 34 :: (lit ":" ++ 34 ::
          (lit "Jenkins-Crumb" ++ 34 :: lit "\x7d")))) := by
      decide
    simp only [Split, standardCrumbBody, hq, e1, e2, List.append_assoc, List.cons_append,
      List.nil_append]
    rw [splitFrom_to_sep 34 _ _ (by decide), splitFrom_to_sep 34 _ _ (by decide),
      splitFrom_to_sep 34 _ _ (by decide), splitFrom_to_sep 34 _ _ (by decide),
      splitFrom_to_sep 34 _ _ (by decide), splitFrom_to_sep 34 _ _ (by decide),
      splitFrom_to_sep 34 _ _ (by decide), splitFrom_to_sep 34 _ _ hv,
      splitFrom_to_sep 34 _ _ (by decide), splitFrom_to_sep 34 _ _ (by decide),
      splitFrom_to_sep 34 _ _ (by decide), splitFrom_to_sep 34 _ _ (by decide),
      splitFrom_no_sep 34 _ (by decide)]
    simp
  rw [parseCrumb_eq, hsplit]
  have n1 : lit "\x7b" ≠ lit "crumb" := by decide
  have n2 : lit "_class" ≠ lit "crumb" := by decide
  have n3 : lit ":" ≠ lit "crumb" := by decide
  have n4 : lit "hudson.security.csrf.DefaultCrumbIssuer" ≠ lit "crumb" := by decide
  have n5 : lit "," ≠ lit "crumb" := by decide
  simp [firstCrumbValue, n1, n2, n3, n4, n5]

/-- The body was obtained from a 200 answer to the crumb-issuer request. -/
theorem getCrumb_ok (env : Env) (j : JenkinsClient) (resp : Response)
    (hsent : crumbRequest j ∈ (getCrumb env j).2)
    (hrt : env.roundTrip [] (crumbRequest j) = Except.ok resp)
    (h200 : resp.StatusCode = 200) (hbody : resp.ReadErr = none) :
    (getCrumb env j).1 = parseCrumb resp.Body := by
  have hp : env.parseURL (j.BaseURL ++ lit "/crumbIssuer/api/json") = none := by
    cases hc : env.parseURL (j.BaseURL ++ lit "/crumbIssuer/api/json") with
    | none => rfl
    | some e =>
      rw [getCrumb_rejected env j e hc] at hsent
      simp at hsent
  rw [getCrumb_run env j hp, hrt]
  simp [crumbOutcome, h200, hbody]

/-! ## Query encoding of the job name -/

theorem escapeByte_length (c : Byte) : 1 ≤ (escapeByte c).length := by
  unfold escapeByte
  split_ifs <;> simp

theorem queryEscape_length (s : GoString) : s.length ≤ (QueryEscape s).length := by
  induction s with
  | nil => simp [QueryEscape]
  | cons c s ih =>
    have := escapeByte_length c
    simp only [QueryEscape, List.length_append, List.length_cons]
    omega

theorem escapeByte_ne (c : Byte) (s t : GoString) (hu : unreserved c = false)
    (hlen : s.length ≤ t.length) : escapeByte c ++ t ≠ c :: s := by
  intro h
  unfold escapeByte at h
  rw [hu] at h
  by_cases h32 : c = 32
  · subst h32
    revert h
    simp
  · simp only [Bool.false_eq_true, if_false, h32] at h
    have hl := congrArg List.length h
    simp only [List.length_append, List.length_cons, List.length_nil] at hl
    omega

/-- Encoding leaves a string unchanged exactly when all its characters are
unreserved. -/
theorem queryEscape_eq_self_iff (s : GoString) :
    QueryEscape s = s ↔ ∀ c ∈ s, unreserved c = true := by
  induction s with
  | nil => simp [QueryEscape]
  | cons c s ih =>
    simp only [QueryEscape, List.mem_cons, forall_eq_or_imp]
    cases hu : unreserved c with
    | true => simp [escapeByte, hu, ih]
    | false =>
      simp only [Bool.false_eq_true, false_and, iff_false]
      exact escapeByte_ne c s _ hu (queryEscape_length s)

theorem queryUnescape_unreserved (s : GoString) (h : ∀ c ∈ s, unreserved c = true) :
    QueryUnescape s = some s := by
  induction s with
  | nil => rfl
  | cons c s ih =>
    have hc : unreserved c = true := h c (List.mem_cons_self _ _)
    have h37 : c ≠ 37 := by
      intro e
      rw [e] at hc
      exact absurd hc (by decide)
    have h43 : c ≠ 43 := by
      intro e
      rw [e] at hc
      exact absurd hc (by decide)
    have ih2 := ih (fun d hd => h d (List.mem_cons_of_mem _ hd))
    unfold QueryUnescape
    rw [if_neg h37, if_neg h43, ih2]
    rfl

theorem unreserved_not_mem (s : GoString) (h : ∀ c ∈ s, unreserved c = true) (d : Byte)
    (hd : unreserved d = false) : d ∉ s := by
  intro hm
  rw [h d hm] at hd
  exact absurd hd (by decide)

theorem takeWhile_to (p : Byte → Bool) (a rest : GoString) (d : Byte) (ha : ∀ c ∈ a, p c = true)
    (hd : p d = false) : (a ++ d :: rest).takeWhile p = a := by
  induction a with
  | nil => simp [List.takeWhile, hd]
  | cons c a ih =>
    simp [List.takeWhile, ha c (List.mem_cons_self _ _),
      ih (fun x hx => ha x (List.mem_cons_of_mem _ hx))]

theorem dropWhile_to (p : Byte → Bool) (a rest : GoString) (d : Byte) (ha : ∀ c ∈ a, p c = true)
    (hd : p d = false) : (a ++ d :: rest).dropWhile p = d :: rest := by
  induction a with
  | nil => simp [List.dropWhile, hd]
  | cons c a ih =>
    simp [List.dropWhile, ha c (List.mem_cons_self _ _),
      ih (fun x hx => ha x (List.mem_cons_of_mem _ hx))]

theorem takeWhile_all (p : Byte → Bool) (a : GoString) (ha : ∀ c ∈ a, p c = true) :
    a.takeWhile p = a := by
  induction a with
  | nil => rfl
  | cons c a ih =>
    simp [List.takeWhile, ha c (List.mem_cons_self _ _),
      ih (fun x hx => ha x (List.mem_cons_of_mem _ hx))]

/-- The `name` parameter of the createItem URL decodes to the job name when the
base URL has neither `?` nor `#` and the job name is made of unreserved
characters. -/
theorem queryParam_createItem (base jobName : GoString) (hq : (63 : Byte) ∉ base)
    (hf : (35 : Byte) ∉ base) (h : ∀ c ∈ jobName, unreserved c = true) :
    queryParam (lit "name") (rawQuery (base ++ lit "/createItem?name=" ++ jobName))
      = some jobName := by
  have e1 : lit "/createItem?name=" = lit "/createItem" ++ 63 :: lit "name=" := by decide
  have e2 : lit "name=" = lit "name" ++ 61 :: [] := by decide
  have hamp : lit "&" = [(38 : Byte)] := by decide
  have hne : ∀ d : Byte, d ∉ base → d ∉ lit "/createItem?name=" → unreserved d = false →
      ∀ c ∈ base ++ lit "/createItem?name=" ++ jobName, decide (c ≠ d) = true := by
    intro d hb hl hd c hc
    simp only [List.mem_append] at hc
    have : c ≠ d := by
      rintro rfl
      rcases hc with (hc | hc) | hc
      · exact hb hc
      · exact hl hc
      · exact unreserved_not_mem jobName h c hd hc
    simpa using this
  have hraw : rawQuery (base ++ lit "/createItem?name=" ++ jobName) = lit "name=" ++ jobName := by
    unfold rawQuery
    rw [takeWhile_all _ _ (hne 35 hf (by decide) (by decide)), e1]
    have : base ++ (lit "/createItem" ++ 63 :: lit "name=") ++ jobName
        = (base ++ lit "/createItem") ++ 63 :: (lit "name=" ++ jobName) := by
      simp
    rw [this, dropWhile_to _ _ _ 63 ?_ (by decide)]
    · rfl
    · intro c hc
      simp only [List.mem_append] at hc
      have : c ≠ 63 := by
        rintro rfl
        rcases hc with hc | hc
        · exact hq hc
        · exact absurd hc (by decide)
      simpa using this
  have hsplit : Split (lit "name=" ++ jobName) (lit "&") = [lit "name=" ++ jobName] := by
    unfold Split
    rw [hamp, splitFrom_no_sep 38 _ ?_]
    · rfl
    · intro hm
      rcases List.mem_append.mp hm with hc | hc
      · exact absurd hc (by decide)
      · exact unreserved_not_mem jobName h 38 (by decide) hc
  have hpair : lit "name=" ++ jobName = lit "name" ++ 61 :: jobName := by
    rw [e2]
    simp
  have hkey : (lit "name=" ++ jobName).takeWhile (fun c => c ≠ 61) = lit "name" := by
    rw [hpair]
    exact takeWhile_to _ _ _ 61 (by decide) (by decide)
  have hval : ((lit "name=" ++ jobName).dropWhile (fun c => c ≠ 61)).drop 1 = jobName := by
    rw [hpair, dropWhile_to _ _ _ 61 (by decide) (by decide)]
    rfl
  have hname : QueryUnescape (lit "name") = some (lit "name") := by decide
  rw [hraw, queryParam, hsplit]
  simp only [List.findSome?, pairValue, hkey, hval, hname, if_true,
    queryUnescape_unreserved jobName h]

/-! ## Replacement passes over templates -/

theorem replaceFrom_skip (old new a rest : GoString) :
    replaceFrom old new a.length (a ++ rest) = replaceFrom old new 0 rest := by
  induction a with
  | nil => rfl
  | cons c a ih => simpa [replaceFrom] using ih

theorem hasPrefix_append_self (p rest : GoString) : hasPrefix (p ++ rest) p = true := by
  rw [hasPrefix_iff]
  exact List.prefix_append p rest

/-- An occurrence of `old` at the front is replaced, and scanning resumes
behind it. -/
theorem replaceFrom_at (old new rest : GoString) (h : old ≠ []) :
    replaceFrom old new 0 (old ++ rest) = new ++ replaceFrom old new 0 rest := by
  cases old with
  | nil => exact absurd rfl h
  | cons c t =>
    have hp := hasPrefix_append_self (c :: t) rest
    rw [List.cons_append] at hp ⊢
    rw [replaceFrom, if_pos hp]
    have : (c :: t).length - 1 = t.length := by simp
    rw [this, replaceFrom_skip]

theorem token_ne_nil (k : Placeholder) : k.token ≠ [] := by
  cases k <;> decide

/-- Within one token no other token starts. -/
theorem replaceFrom_other (k j : Placeholder) (v rest : GoString) (h : j ≠ k) :
    replaceFrom k.token v 0 (j.token ++ rest) = j.token ++ replaceFrom k.token v 0 rest := by
  cases k <;> cases j <;> first | rfl | exact absurd rfl h

theorem token_braces (k : Placeholder) : ∃ t, k.token = 123 :: 123 :: t := by
  cases k
  · exact ⟨lit "PRODUCT_NAME\x7d\x7d", by decide⟩
  · exact ⟨lit "GIT_REPO\x7d\x7d", by decide⟩
  · exact ⟨lit "GIT_BRANCH\x7d\x7d", by decide⟩
  · exact ⟨lit "HELM_DEPLOY\x7d\x7d", by decide⟩

/-- No token starts at a position of brace-safe text, whatever follows it. -/
theorem hasPrefix_safe (k : Placeholder) (c : Byte) (s rest : GoString)
    (h : braceSafe (c :: s) = true) : hasPrefix (c :: s ++ rest) k.token = false := by
  obtain ⟨t, ht⟩ := token_braces k
  rw [ht]
  cases s with
  | nil =>
    have hc : c ≠ 123 := by simpa [braceSafe] using h
    simp [hasPrefix, hc]
  | cons d s =>
    simp only [braceSafe, Bool.and_eq_true, Bool.or_eq_true, decide_eq_true_eq] at h
    simp only [List.cons_append, hasPrefix, Bool.and_eq_false_imp, beq_iff_eq]
    intro hc hd
    rcases h.1 with h1 | h1
    · exact absurd hc h1
    · exact absurd hd h1

theorem braceSafe_tail (c : Byte) (s : GoString) (h : braceSafe (c :: s) = true) :
    braceSafe s = true := by
  cases s with
  | nil => rfl
  | cons d s =>
    simp only [braceSafe, Bool.and_eq_true] at h
    exact h.2

/-- A replacement pass copies brace-safe text. -/
theorem replaceFrom_safe (k : Placeholder) (v : GoString) (s rest : GoString)
    (h : braceSafe s = true) :
    replaceFrom k.token v 0 (s ++ rest) = s ++ replaceFrom k.token v 0 rest := by
  induction s with
  | nil => rfl
  | cons c s ih =>
    have hp := hasPrefix_safe k c s rest h
    rw [List.cons_append] at hp ⊢
    rw [replaceFrom, hp, ih (braceSafe_tail c s h)]
    simp

/-- One replacement pass over a template of brace-safe pieces replaces the
pieces of its token and nothing else. -/
theorem replaceAll_pieces (k : Placeholder) (v : GoString) (ps : List Piece)
    (h : piecesSafe ps = true) :
    ReplaceAll (templateText ps) k.token v = templateText (ps.map (Piece.fill k v)) := by
  unfold ReplaceAll
  induction ps with
  | nil => rfl
  | cons p ps ih =>
    cases p with
    | text s =>
      simp only [piecesSafe, Bool.and_eq_true] at h
      simp only [templateText, Piece.source, List.map, Piece.fill]
      rw [replaceFrom_safe k v s _ h.1, ih h.2]
    | hole j =>
      simp only [piecesSafe] at h
      simp only [templateText, Piece.source, List.map, Piece.fill]
      by_cases hj : j = k
      · subst hj
        rw [replaceFrom_at _ _ _ (token_ne_nil j), ih h]
        simp [Piece.source]
      · rw [replaceFrom_other k j v _ hj, ih h]
        simp [hj, Piece.source]

theorem piecesSafe_fill (k : Placeholder) (v : GoString) (ps : List Piece)
    (h : piecesSafe ps = true) (hv : braceSafe v = true) :
    piecesSafe (ps.map (Piece.fill k v)) = true := by
  induction ps with
  | nil => rfl
  | cons p ps ih =>
    cases p with
    | text s =>
      simp only [piecesSafe, Bool.and_eq_true] at h
      simp [piecesSafe, Piece.fill, h.1, ih h.2]
    | hole j =>
      simp only [piecesSafe] at h
      by_cases hj : j = k
      · simp [piecesSafe, Piece.fill, hj, hv, ih h]
      · simp [piecesSafe, Piece.fill, hj, ih h]

theorem fill_all (params : JobParams) (ps : List Piece) :
    templateText ((((ps.map (Piece.fill Placeholder.productName params.ProductName)).map
      (Piece.fill Placeholder.gitRepo params.GitRepo)).map
      (Piece.fill Placeholder.gitBranch params.GitBranch)).map
      (Piece.fill Placeholder.helmDeploy params.HelmDeploy)) = filledText params ps := by
  induction ps with
  | nil => rfl
  | cons p ps ih =>
    simp only [List.map_map] at ih
    cases p with
    | text s => simp [templateText, filledText, Piece.fill, Piece.source, Piece.filled, ih]
    | hole j =>
      cases j <;>
        simp [templateText, filledText, Piece.fill, Piece.source, Piece.filled,
          Placeholder.value, ih]

theorem renderTemplate_pieces (ps : List Piece) (params : JobParams)
    (hps : piecesSafe ps = true) (h1 : braceSafe params.ProductName = true)
    (h2 : braceSafe params.GitRepo = true) (h3 : braceSafe params.GitBranch = true) :
    renderTemplate (templateText ps) params = filledText params ps := by
  have e1 : lit "\x7b\x7bPRODUCT_NAME\x7d\x7d" = Placeholder.productName.token := rfl
  have e2 : lit "\x7b\x7bGIT_REPO\x7d\x7d" = Placeholder.gitRepo.token := rfl
  have e3 : lit "\x7b\x7bGIT_BRANCH\x7d\x7d" = Placeholder.gitBranch.token := rfl
  have e4 : lit "\x7b\x7bHELM_DEPLOY\x7d\x7d" = Placeholder.helmDeploy.token := rfl
  have s1 := piecesSafe_fill Placeholder.productName _ ps hps h1
  have s2 := piecesSafe_fill Placeholder.gitRepo _ _ s1 h2
  have s3 := piecesSafe_fill Placeholder.gitBranch _ _ s2 h3
  simp only [renderTemplate, e1, e2, e3, e4]
  rw [replaceAll_pieces _ _ _ hps, replaceAll_pieces _ _ _ s1, replaceAll_pieces _ _ _ s2,
    replaceAll_pieces _ _ _ s3, fill_all]

theorem substituteFrom_skip (params : JobParams) (a rest : GoString) :
    substituteFrom params a.length (a ++ rest) = substituteFrom params 0 rest := by
  induction a with
  | nil => rfl
  | cons c a ih => simpa [substituteFrom] using ih

theorem hasPrefix_token (i j : Placeholder) (rest : GoString) :
    hasPrefix (j.token ++ rest) i.token = decide (i = j) := by
  by_cases h : i = j
  · subst h
    simp [hasPrefix_append_self]
  · have : hasPrefix (j.token ++ rest) i.token = false := by
      cases i <;> cases j <;> first | rfl | exact absurd rfl h
    simp [this, h]

theorem substituteFrom_zero (params : JobParams) (c : Byte) (s : GoString) :
    substituteFrom params 0 (c :: s) =
      if hasPrefix (c :: s) Placeholder.productName.token then
        params.ProductName ++ substituteFrom params (Placeholder.productName.token.length - 1) s
      else if hasPrefix (c :: s) Placeholder.gitRepo.token then
        params.GitRepo ++ substituteFrom params (Placeholder.gitRepo.token.length - 1) s
      else if hasPrefix (c :: s) Placeholder.gitBranch.token then
        params.GitBranch ++ substituteFrom params (Placeholder.gitBranch.token.length - 1) s
      else if hasPrefix (c :: s) Placeholder.helmDeploy.token then
        params.HelmDeploy ++ substituteFrom params (Placeholder.helmDeploy.token.length - 1) s
      else c :: substituteFrom params 0 s := by
  rw [substituteFrom]

theorem substituteFrom_hole (params : JobParams) (j : Placeholder) (rest : GoString) :
    substituteFrom params 0 (j.token ++ rest)
      = j.value params ++ substituteFrom params 0 rest := by
  obtain ⟨t, ht⟩ := token_braces j
  have hform : j.token ++ rest = 123 :: (123 :: t ++ rest) := by
    rw [ht]
    rfl
  have hp : ∀ i : Placeholder, hasPrefix (123 :: (123 :: t ++ rest)) i.token = decide (i = j) :=
    fun i => hform ▸ hasPrefix_token i j rest
  have hlen : j.token.length - 1 = (123 :: t).length := by
    rw [ht]
    rfl
  have hskip := substituteFrom_skip params (123 :: t) rest
  rw [hform, substituteFrom_zero]
  simp only [hp]
  cases j <;>
    simp only [reduceCtorEq, decide_False, decide_True, if_true, if_false, Bool.false_eq_true,
      Placeholder.value] <;>
    rw [hlen, hskip]

theorem substituteFrom_safe (params : JobParams) (s rest : GoString) (h : braceSafe s = true) :
    substituteFrom params 0 (s ++ rest) = s ++ substituteFrom params 0 rest := by
  induction s with
  | nil => rfl
  | cons c s ih =>
    have hp := fun k => hasPrefix_safe k c s rest h
    simp only [List.cons_append] at hp ⊢
    rw [substituteFrom_zero]
    simp only [hp, Bool.false_eq_true, if_false, ih (braceSafe_tail c s h)]

theorem substitutePlaceholders_pieces (ps : List Piece) (params : JobParams)
    (hps : piecesSafe ps = true) :
    substitutePlaceholders (templateText ps) params = filledText params ps := by
  unfold substitutePlaceholders
  induction ps with
  | nil => rfl
  | cons p ps ih =>
    cases p with
    | text s =>
      simp only [piecesSafe, Bool.and_eq_true] at hps
      simp only [templateText, filledText, Piece.source, Piece.filled]
      rw [substituteFrom_safe params s _ hps.1, ih hps.2]
    | hole j =>
      simp only [piecesSafe] at hps
      simp only [templateText, filledText, Piece.source, Piece.filled]
      rw [substituteFrom_hole, ih hps]

/-! ## The concrete world -/

theorem demoEnv_post (get post : Except GoString Response) (hist : List Request) (req : Request)
    (hm : req.Method = lit "POST") : (demoEnv get post).roundTrip hist req = post := by
  have hne : lit "POST" ≠ lit "GET" := by decide
  simp [demoEnv, hm, hne]

theorem demoEnv_get (get post : Except GoString Response) (hist : List Request) (req : Request)
    (hm : req.Method = lit "GET") : (demoEnv get post).roundTrip hist req = get := by
  simp [demoEnv, hm]

theorem jobsEnv_post (existing : List GoString) (hist : List Request) (req : Request)
    (hm : req.Method = lit "POST") :
    (jobsEnv existing).roundTrip hist req =
      if existing.any (fun name =>
          req.URL == demoConfig.JenkinsURL ++ lit "/createItem?name=" ++ name) then
        Except.ok ⟨400, lit "A job already exists with the name demo", none⟩
      else Except.ok ⟨201, [], none⟩ := by
  simp only [jobsEnv, hm, if_true]

theorem demo_crumb_sent (get post : Except GoString Response) (jobName path : GoString)
    (params : JobParams) :
    crumbRequest demoClient ∈ (AddNewJob (demoEnv get post) demoClient jobName path params).2 := by
  rw [AddNewJob_run _ _ _ _ (lit "\x7b\x7bPRODUCT_NAME\x7d\x7d") _ rfl rfl, getCrumb_sent]
  simp [demoEnv]

theorem demo_connection_sent (get post : Except GoString Response) :
    connectionRequest demoClient ∈ (TestConnection (demoEnv get post) demoClient).2 := by
  rw [TestConnection_sent _ _ rfl]
  simp

theorem demo_getCrumb_sent (get post : Except GoString Response) :
    crumbRequest demoClient ∈ (getCrumb (demoEnv get post) demoClient).2 := by
  rw [getCrumb_sent]
  simp [demoEnv]

/-! ## The claims -/

/-- C1 (amended). Template rendering is four replace-all passes applied one after
another.  For every template made of placeholder tokens and of text pieces in
which every opening brace is followed by a byte other than an opening brace,
and every parameter bundle whose ProductName, GitRepo and GitBranch have that
same property, the rendered text is the template with each token replaced by
the corresponding field and every text piece unchanged, which is also what one
simultaneous substitution pass over the template gives. -/
theorem renderTemplate_total_substitution (ps : List Piece) (params : JobParams)
    (hps : piecesSafe ps = true) (h1 : braceSafe params.ProductName = true)
    (h2 : braceSafe params.GitRepo = true) (h3 : braceSafe params.GitBranch = true) :
    renderTemplate (templateText ps) params = filledText params ps ∧
    renderTemplate (templateText ps) params
      = substitutePlaceholders (templateText ps) params := by
  rw [renderTemplate_pieces ps params hps h1 h2 h3, substitutePlaceholders_pieces ps params hps]
  exact ⟨rfl, rfl⟩

/-- The example of the specification: `app={{PRODUCT_NAME}} repo={{GIT_REPO}}` with
ProductName `svc-a` and GitRepo `http://git/x.git` renders to
`app=svc-a repo=http://git/x.git`. -/
theorem renderTemplate_total_substitution_witness :
    templateText [Piece.text (lit "app="), Piece.hole Placeholder.productName,
        Piece.text (lit " repo="), Piece.hole Placeholder.gitRepo]
      = lit "app=\x7b\x7bPRODUCT_NAME\x7d\x7d repo=\x7b\x7bGIT_REPO\x7d\x7d" ∧
    renderTemplate (templateText [Piece.text (lit "app="), Piece.hole Placeholder.productName,
        Piece.text (lit " repo="), Piece.hole Placeholder.gitRepo])
        ⟨lit "svc-a", lit "http://git/x.git", [], []⟩
      = lit "app=svc-a repo=http://git/x.git" :=
  ⟨by decide,
    (renderTemplate_total_substitution
      [Piece.text (lit "app="), Piece.hole Placeholder.productName,
        Piece.text (lit " repo="), Piece.hole Placeholder.gitRepo]
      ⟨lit "svc-a", lit "http://git/x.git", [], []⟩
      (by decide) (by decide) (by decide) (by decide)).1.trans (by decide)⟩

/-- C1 as stated fails: for the template `{{PRODUCT_NAME}}` with ProductName
`{{GIT_REPO}}` and GitRepo `x`, the template with its token replaced by the field
is `{{GIT_REPO}}`, but the second pass rewrites the substituted value and the
rendered text is `x`. -/
theorem renderTemplate_counterexample :
    renderTemplate (lit "\x7b\x7bPRODUCT_NAME\x7d\x7d")
        ⟨lit "\x7b\x7bGIT_REPO\x7d\x7d", lit "x", [], []⟩ = lit "x" ∧
    substitutePlaceholders (lit "\x7b\x7bPRODUCT_NAME\x7d\x7d")
        ⟨lit "\x7b\x7bGIT_REPO\x7d\x7d", lit "x", [], []⟩ = lit "\x7b\x7bGIT_REPO\x7d\x7d" ∧
    renderTemplate (lit "\x7b\x7bPRODUCT_NAME\x7d\x7d")
        ⟨lit "\x7b\x7bGIT_REPO\x7d\x7d", lit "x", [], []⟩
      ≠ substitutePlaceholders (lit "\x7b\x7bPRODUCT_NAME\x7d\x7d")
        ⟨lit "\x7b\x7bGIT_REPO\x7d\x7d", lit "x", [], []⟩ := by
  decide

/-- C2. Job-creation status classification is total and exclusive: when the
template is readable, the createItem URL is accepted and the createItem POST
that `AddNewJob` sends (after the requests of the crumb step) is answered with
a response, `AddNewJob` returns the "already exists or invalid config" error
naming the job exactly when the status is 400, the success message
`Job '<jobName>' created successfully` with no error exactly when the status is
200 or 201, and the server error carrying the status and the body exactly for
every other status; it never returns both a message and an error. -/
theorem AddNewJob_status_classification (env : Env) (j : JenkinsClient)
    (jobName templatePath script : GoString) (params : JobParams) (resp : Response)
    (hread : env.readFile templatePath = Except.ok script)
    (hurl : env.parseURL (j.BaseURL ++ lit "/createItem?name=" ++ jobName) = none)
    (hresp : env.roundTrip (getCrumb env j).2
      (createItemFinal j jobName script params (getCrumb env j).1) = Except.ok resp) :
    ((AddNewJob env j jobName templatePath params).1
        = ([], some (lit "job creation failed: job '" ++ jobName ++
            lit "' already exists or invalid config")) ↔ resp.StatusCode = 400) ∧
    ((AddNewJob env j jobName templatePath params).1
        = (lit "Job '" ++ jobName ++ lit "' created successfully", none)
        ↔ resp.StatusCode = 200 ∨ resp.StatusCode = 201) ∧
    ((AddNewJob env j jobName templatePath params).1
        = ([], some (lit "jenkins returned status " ++ fmtInt resp.StatusCode ++ lit ": " ++
            resp.Body))
        ↔ resp.StatusCode ≠ 400 ∧ resp.StatusCode ≠ 200 ∧ resp.StatusCode ≠ 201) ∧
    ¬ ((AddNewJob env j jobName templatePath params).1.1 ≠ [] ∧
        (AddNewJob env j jobName templatePath params).1.2 ≠ none) := by
  rw [AddNewJob_run env j jobName templatePath script params hread hurl]
  simp only
  rw [hresp]
  exact createOutcome_classes jobName resp

/-- On a server that answers the createItem POST of an existing job name with
400 and that of a new name with 201 (and has no crumb issuer), creating the
existing job `demo` gives the "already exists or invalid config" error and
creating the new job `demo2` gives the success message and no error. -/
theorem AddNewJob_status_classification_witness :
    (AddNewJob (jobsEnv [lit "demo"]) demoClient
        (lit "demo") (lit "templates/jenkins/demo.groovy") ⟨lit "demo", [], [], []⟩).1
      = ([], some (lit "job creation failed: job 'demo' already exists or invalid config")) ∧
    (AddNewJob (jobsEnv [lit "demo"]) demoClient
        (lit "demo2") (lit "templates/jenkins/demo.groovy") ⟨lit "demo2", [], [], []⟩).1
      = (lit "Job 'demo2' created successfully", none) :=
  ⟨((AddNewJob_status_classification (jobsEnv [lit "demo"]) demoClient (lit "demo")
      (lit "templates/jenkins/demo.groovy") (lit "\x7b\x7bPRODUCT_NAME\x7d\x7d")
      ⟨lit "demo", [], [], []⟩ ⟨400, lit "A job already exists with the name demo", none⟩
      rfl rfl (by
        rw [jobsEnv_post _ _ _ (createItemFinal_method _ _ _ _ _), createItemFinal_url,
          if_pos (by decide)])).1.mpr rfl).trans (by decide),
    ((AddNewJob_status_classification (jobsEnv [lit "demo"]) demoClient (lit "demo2")
      (lit "templates/jenkins/demo.groovy") (lit "\x7b\x7bPRODUCT_NAME\x7d\x7d")
      ⟨lit "demo2", [], [], []⟩ ⟨201, [], none⟩
      rfl rfl (by
        rw [jobsEnv_post _ _ _ (createItemFinal_method _ _ _ _ _), createItemFinal_url,
          if_neg (by decide)])).2.1.mpr (Or.inr rfl)).trans (by decide)⟩

/-- C3. CSRF absence is non-fatal: in a run of `AddNewJob` on a readable
template in which the crumb-issuer GET is sent and fails in transport or is
answered with a status other than 200, the createItem POST is sent after it,
that POST is the request built before the crumb step (it has no `Jenkins-Crumb`
header), and the result is the classification of the outcome of that POST alone.
In every run, a createItem POST has a `Jenkins-Crumb` header exactly when
`getCrumb` returned a header name without an error. -/
theorem AddNewJob_crumb_failure_nonfatal (env : Env) (j : JenkinsClient)
    (jobName templatePath : GoString) (params : JobParams) :
    (∀ script, env.readFile templatePath = Except.ok script →
      crumbRequest j ∈ (AddNewJob env j jobName templatePath params).2 →
      (∀ resp, env.roundTrip [] (crumbRequest j) = Except.ok resp → resp.StatusCode ≠ 200) →
      (AddNewJob env j jobName templatePath params).2
          = [crumbRequest j, createItemBase j jobName script params] ∧
        (createItemBase j jobName script params).Method = lit "POST" ∧
        (createItemBase j jobName script params).Get (lit "Jenkins-Crumb") = none ∧
        (AddNewJob env j jobName templatePath params).1
          = createOutcome jobName
              (env.roundTrip [crumbRequest j] (createItemBase j jobName script params))) ∧
    (∀ post ∈ (AddNewJob env j jobName templatePath params).2, post.Method = lit "POST" →
      (post.Get (lit "Jenkins-Crumb") ≠ none ↔
        ((getCrumb env j).1.2.2 = none ∧ (getCrumb env j).1.1 ≠ []))) := by
  constructor
  · intro script hread hsent hfail
    rcases AddNewJob_sent env j jobName templatePath params with h | ⟨script2, hread2, hurl, h⟩
    · rw [h] at hsent
      simp at hsent
    · have hsc : script2 = script := by
        rw [hread] at hread2
        exact (Except.ok.inj hread2).symm
      subst hsc
      have hcurl : env.parseURL (j.BaseURL ++ lit "/crumbIssuer/api/json") = none := by
        by_contra hc
        have hs := getCrumb_sent env j
        simp only [hc, if_false] at hs
        rw [h, hs] at hsent
        simp only [List.nil_append, List.mem_singleton] at hsent
        exact crumbRequest_ne_createItemFinal _ _ _ _ _ hsent
      have h0 := getCrumb_no_token env j hfail
      have hs := getCrumb_sent env j
      simp only [hcurl, if_true] at hs
      have hf : createItemFinal j jobName script2 params (getCrumb env j).1
          = createItemBase j jobName script2 params := by
        simp [createItemFinal, h0]
      rw [AddNewJob_run env j jobName templatePath script2 params hread hurl, hf, hs]
      exact ⟨rfl, rfl, createItemBase_no_crumb j jobName script2 params, rfl⟩
  · intro post hpost hm
    rcases AddNewJob_sent env j jobName templatePath params with h | ⟨script, _, _, h⟩
    · rw [h] at hpost
      simp at hpost
    · rw [h, List.mem_append, List.mem_singleton] at hpost
      have hp : post = createItemFinal j jobName script params (getCrumb env j).1 := by
        rcases hpost with hc | hc
        · exfalso
          have hs := getCrumb_sent env j
          rw [hs] at hc
          split_ifs at hc
          · rw [List.mem_singleton] at hc
            rw [hc] at hm
            revert hm
            simp only [crumbRequest]
            decide
          · simp at hc
        · exact hc
      rw [hp]
      unfold createItemFinal
      rcases getCrumb_header env j with h | ⟨h, he⟩
      · simp [h, createItemBase_no_crumb]
      · have hne : lit "Jenkins-Crumb" ≠ [] := by decide
        simp only [h, he, hne, ne_eq, not_false_eq_true, and_self, if_true, set_get]
        simp

/-- With a 404 from the crumb issuer the run sends the crumb GET and then the
createItem POST as built before the crumb step; with a transport failure of
the crumb GET and a 200 on the POST the job is reported created. -/
theorem AddNewJob_crumb_failure_nonfatal_witness :
    (AddNewJob (demoEnv (Except.ok ⟨404, [], none⟩) (Except.ok ⟨200, [], none⟩)) demoClient
        (lit "demo") (lit "templates/jenkins/demo.groovy") ⟨lit "demo", [], [], []⟩).2
      = [crumbRequest demoClient,
          createItemBase demoClient (lit "demo") (lit "\x7b\x7bPRODUCT_NAME\x7d\x7d")
            ⟨lit "demo", [], [], []⟩] ∧
    (AddNewJob (demoEnv (Except.error (lit "dial tcp: connection refused"))
        (Except.ok ⟨200, [], none⟩)) demoClient
        (lit "demo") (lit "templates/jenkins/demo.groovy") ⟨lit "demo", [], [], []⟩).1
      = (lit "Job 'demo' created successfully", none) :=
  ⟨((AddNewJob_crumb_failure_nonfatal (demoEnv (Except.ok ⟨404, [], none⟩)
      (Except.ok ⟨200, [], none⟩)) demoClient (lit "demo") (lit "templates/jenkins/demo.groovy")
      ⟨lit "demo", [], [], []⟩).1 (lit "\x7b\x7bPRODUCT_NAME\x7d\x7d") rfl
      (demo_crumb_sent _ _ _ _ _)
      (fun resp h => by
        rw [demoEnv_get _ _ _ _ rfl] at h
        cases h
        decide)).1,
    ((AddNewJob_crumb_failure_nonfatal (demoEnv (Except.error (lit "dial tcp: connection refused"))
      (Except.ok ⟨200, [], none⟩)) demoClient (lit "demo") (lit "templates/jenkins/demo.groovy")
      ⟨lit "demo", [], [], []⟩).1 (lit "\x7b\x7bPRODUCT_NAME\x7d\x7d") rfl
      (demo_crumb_sent _ _ _ _ _)
      (fun resp h => by
        rw [demoEnv_get _ _ _ _ rfl] at h
        cases h)).2.2.2.trans (by
          rw [demoEnv_post _ _ _ _ rfl]
          decide)⟩

/-- C4. Connectivity-check classification: in a run of `TestConnection` that
sends the GET of `{base}/api/json`, a transport failure gives the connection
error; otherwise the result is the "authentication failed: invalid credentials"
error exactly when the status is 401, no error exactly when the status is 200,
and the server error carrying the status and the response body exactly for
every other status. -/
theorem TestConnection_classification (env : Env) (j : JenkinsClient)
    (hsent : connectionRequest j ∈ (TestConnection env j).2) :
    (∀ err, env.roundTrip [] (connectionRequest j) = Except.error err →
      (TestConnection env j).1 = some (lit "failed to connect to Jenkins: " ++ err)) ∧
    (∀ resp, env.roundTrip [] (connectionRequest j) = Except.ok resp →
      ((TestConnection env j).1 = some (lit "authentication failed: invalid credentials")
        ↔ resp.StatusCode = 401) ∧
      ((TestConnection env j).1 = none ↔ resp.StatusCode = 200) ∧
      ((TestConnection env j).1
          = some (lit "jenkins returned status " ++ fmtInt resp.StatusCode ++ lit ": " ++
              resp.Body)
        ↔ resp.StatusCode ≠ 401 ∧ resp.StatusCode ≠ 200)) := by
  have hp : env.parseURL (j.BaseURL ++ lit "/api/json") = none := by
    cases hc : env.parseURL (j.BaseURL ++ lit "/api/json") with
    | none => rfl
    | some e =>
      rw [TestConnection_rejected env j e hc] at hsent
      simp at hsent
  refine ⟨fun err hrt => TestConnection_error env j err hp hrt, fun resp hrt => ?_⟩
  rw [TestConnection_response env j resp hp hrt]
  have hne := authFailed_ne_status resp.Body resp.StatusCode
  by_cases h401 : resp.StatusCode = 401
  · simp [h401] at hne ⊢
    exact hne
  · by_cases h200 : resp.StatusCode = 200
    · simp [h200]
    · simp [h401, h200]
      exact fun h => hne (by simpa using h.symm)

/-- Status 401 on the connectivity GET gives the authentication error. -/
theorem TestConnection_classification_witness :
    (TestConnection (demoEnv (Except.ok ⟨401, [], none⟩) (Except.error [])) demoClient).1
      = some (lit "authentication failed: invalid credentials") :=
  ((TestConnection_classification (demoEnv (Except.ok ⟨401, [], none⟩) (Except.error []))
    demoClient (demo_connection_sent _ _)).2 ⟨401, [], none⟩
    (demoEnv_get _ _ _ _ rfl)).1.mpr rfl

/-- C5. Crumb extraction on a 200 response: when the crumb-issuer GET is sent and
answered with status 200 and a readable body, `getCrumb` splits the body on the
double-quote character and returns `Jenkins-Crumb` with the part two positions
after the first part that is exactly `crumb` and has at least two parts after
it (and no token when there is no such part).  For the standard crumb-issuer
body with a quote-free value `v` the result is (`Jenkins-Crumb`, `v`), and a
returned header name is always `Jenkins-Crumb`. -/
theorem getCrumb_extraction (env : Env) (j : JenkinsClient) (resp : Response)
    (hsent : crumbRequest j ∈ (getCrumb env j).2)
    (hrt : env.roundTrip [] (crumbRequest j) = Except.ok resp)
    (h200 : resp.StatusCode = 200) (hbody : resp.ReadErr = none) :
    (getCrumb env j).1 =
      (match firstCrumbValue (Split resp.Body (lit "\"")) with
        | some value => (lit "Jenkins-Crumb", value, none)
        | none => ([], [], none)) ∧
    (∀ v, (34 : Byte) ∉ v → resp.Body = standardCrumbBody v →
      (getCrumb env j).1 = (lit "Jenkins-Crumb", v, none)) ∧
    ((getCrumb env j).1.1 ≠ [] → (getCrumb env j).1.1 = lit "Jenkins-Crumb") := by
  have hok := getCrumb_ok env j resp hsent hrt h200 hbody
  refine ⟨?_, ?_, ?_⟩
  · rw [hok, parseCrumb_eq]
  · intro v hv hb
    rw [hok, hb, parseCrumb_standard v hv]
  · intro hne
    rcases getCrumb_header env j with h | ⟨h, _⟩
    · exact absurd h hne
    · exact h

/-- The standard crumb-issuer body with crumb `abc123` yields (`Jenkins-Crumb`,
`abc123`). -/
theorem getCrumb_extraction_witness :
    (getCrumb (demoEnv (Except.ok ⟨200, standardCrumbBody (lit "abc123"), none⟩)
      (Except.error [])) demoClient).1 = (lit "Jenkins-Crumb", lit "abc123", none) :=
  (getCrumb_extraction (demoEnv (Except.ok ⟨200, standardCrumbBody (lit "abc123"), none⟩)
    (Except.error [])) demoClient ⟨200, standardCrumbBody (lit "abc123"), none⟩
    (demo_getCrumb_sent _ _) (demoEnv_get _ _ _ _ rfl) rfl rfl).2.1 (lit "abc123")
    (by decide) rfl

/-- C6 (amended). The URL of the createItem POST is the base URL followed by
`/createItem?name=` and the job name exactly as given, with no encoding.  It
is the query-percent-encoded form exactly when every character of the job name
is unreserved (a letter, a digit, `-`, `_`, `.` or `~`); for such a name, and a
base URL without `?` and `#`, the `name` query parameter of the URL decodes to
the job name. -/
theorem AddNewJob_url_verbatim (env : Env) (j : JenkinsClient)
    (jobName templatePath script : GoString) (params : JobParams)
    (hread : env.readFile templatePath = Except.ok script)
    (hurl : env.parseURL (j.BaseURL ++ lit "/createItem?name=" ++ jobName) = none) :
    ∃ post, (AddNewJob env j jobName templatePath params).2.getLast? = some post ∧
      post.Method = lit "POST" ∧
      post.URL = j.BaseURL ++ lit "/createItem?name=" ++ jobName ∧
      (post.URL = j.BaseURL ++ lit "/createItem?name=" ++ QueryEscape jobName
        ↔ ∀ c ∈ jobName, unreserved c = true) ∧
      ((63 : Byte) ∉ j.BaseURL → (35 : Byte) ∉ j.BaseURL → (∀ c ∈ jobName, unreserved c = true) →
        queryParam (lit "name") (rawQuery post.URL) = some jobName) := by
  rw [AddNewJob_run env j jobName templatePath script params hread hurl]
  refine ⟨createItemFinal j jobName script params (getCrumb env j).1, by simp,
    createItemFinal_method _ _ _ _ _, createItemFinal_url _ _ _ _ _, ?_, ?_⟩
  · rw [createItemFinal_url, List.append_cancel_left_eq, eq_comm, queryEscape_eq_self_iff]
  · intro hq hf h
    rw [createItemFinal_url]
    exact queryParam_createItem j.BaseURL jobName hq hf h

/-- For the job name `demo-1` the URL is `https://ci.example.com/createItem?name=demo-1`
and its `name` parameter decodes to `demo-1`. -/
theorem AddNewJob_url_verbatim_witness :
    ∃ post,
      (AddNewJob (demoEnv (Except.error []) (Except.error [])) demoClient (lit "demo-1") []
        ⟨[], [], [], []⟩).2.getLast? = some post ∧
      post.URL = lit "https://ci.example.com/createItem?name=demo-1" ∧
      queryParam (lit "name") (rawQuery post.URL) = some (lit "demo-1") := by
  obtain ⟨post, h1, _, h3, _, h5⟩ := AddNewJob_url_verbatim
    (demoEnv (Except.error []) (Except.error [])) demoClient (lit "demo-1") []
    (lit "\x7b\x7bPRODUCT_NAME\x7d\x7d") ⟨[], [], [], []⟩ rfl rfl
  exact ⟨post, h1, h3.trans (by decide), h5 (by decide) (by decide) (by decide)⟩

/-- C6 as stated fails: for the job name `a&b` the URL of the POST ends in
`name=a&b`, not in the encoded `name=a%26b`, and its `name` parameter decodes
to `a`. -/
theorem AddNewJob_url_counterexample :
    ∃ post,
      (AddNewJob (demoEnv (Except.error []) (Except.error [])) demoClient (lit "a&b") []
        ⟨[], [], [], []⟩).2.getLast? = some post ∧
      post.URL = lit "https://ci.example.com/createItem?name=a&b" ∧
      post.URL ≠ demoClient.BaseURL ++ lit "/createItem?name=" ++ QueryEscape (lit "a&b") ∧
      queryParam (lit "name") (rawQuery post.URL) = some (lit "a") ∧
      queryParam (lit "name") (rawQuery post.URL) ≠ some (lit "a&b") := by
  rw [AddNewJob_run _ _ _ _ (lit "\x7b\x7bPRODUCT_NAME\x7d\x7d") _ rfl rfl]
  refine ⟨_, by simp; rfl, ?_⟩
  rw [createItemFinal_url]
  decide

/-- C7 (amended). When the crumb-issuer GET is sent and answered with status 200
and a readable body, `getCrumb` returns no token exactly when no part of the
quote-split body that is exactly `crumb` has two parts after it, in particular
whenever the body does not contain the text `crumb`; when there is such a part,
the part two positions after the first one is returned as the token, whatever
it is. -/
theorem getCrumb_no_token_iff (env : Env) (j : JenkinsClient) (resp : Response)
    (hsent : crumbRequest j ∈ (getCrumb env j).2)
    (hrt : env.roundTrip [] (crumbRequest j) = Except.ok resp)
    (h200 : resp.StatusCode = 200) (hbody : resp.ReadErr = none) :
    ((getCrumb env j).1 = ([], [], none)
      ↔ firstCrumbValue (Split resp.Body (lit "\"")) = none) ∧
    (Contains resp.Body (lit "crumb") = false → (getCrumb env j).1 = ([], [], none)) ∧
    (∀ v, firstCrumbValue (Split resp.Body (lit "\"")) = some v →
      (getCrumb env j).1 = (lit "Jenkins-Crumb", v, none)) := by
  have hok := getCrumb_ok env j resp hsent hrt h200 hbody
  have hne : lit "Jenkins-Crumb" ≠ [] := by decide
  refine ⟨?_, ?_, ?_⟩
  · rw [hok, parseCrumb_eq]
    cases firstCrumbValue (Split resp.Body (lit "\"")) with
    | none => simp
    | some v => simp [hne]
  · intro hc
    rw [hok]
    simp [parseCrumb, hc]
  · intro v hv
    rw [hok, parseCrumb_eq, hv]

/-- A body whose `crumb` key comes last, with an unquoted value, yields no token. -/
theorem getCrumb_no_token_iff_witness :
    (getCrumb (demoEnv (Except.ok ⟨200, lit "\x7b\"x\":1,\"crumb\":123\x7d", none⟩)
      (Except.error [])) demoClient).1 = ([], [], none) :=
  (getCrumb_no_token_iff (demoEnv (Except.ok ⟨200, lit "\x7b\"x\":1,\"crumb\":123\x7d", none⟩)
    (Except.error [])) demoClient ⟨200, lit "\x7b\"x\":1,\"crumb\":123\x7d", none⟩
    (demo_getCrumb_sent _ _) (demoEnv_get _ _ _ _ rfl) rfl rfl).1.mpr (by decide)

/-- C7 as stated fails: for the body `{"crumb":123,"crumbRequestField":"Jenkins-Crumb"}`,
whose crumb value is not quoted, `getCrumb` returns `crumbRequestField` as the
token, and for `{"a":"crumb","b":"c"}`, which has no crumb key, it returns `b`. -/
theorem getCrumb_shape_counterexample :
    quotedCrumbField
        (Split (lit "\x7b\"crumb\":123,\"crumbRequestField\":\"Jenkins-Crumb\"\x7d") (lit "\""))
      = none ∧
    (getCrumb (demoEnv (Except.ok ⟨200,
        lit "\x7b\"crumb\":123,\"crumbRequestField\":\"Jenkins-Crumb\"\x7d", none⟩)
        (Except.error [])) demoClient).1
      = (lit "Jenkins-Crumb", lit "crumbRequestField", none) ∧
    quotedCrumbField (Split (lit "\x7b\"a\":\"crumb\",\"b\":\"c\"\x7d") (lit "\"")) = none ∧
    (getCrumb (demoEnv (Except.ok ⟨200, lit "\x7b\"a\":\"crumb\",\"b\":\"c\"\x7d", none⟩)
        (Except.error [])) demoClient).1
      = (lit "Jenkins-Crumb", lit "b", none) := by
  rw [getCrumb_run _ _ rfl, getCrumb_run _ _ rfl]
  decide

/-- C8. Job XML assembly embeds the rendered script verbatim: when the template
is readable and the createItem URL is accepted, the body of the createItem POST
is the fixed envelope (with the description, `<sandbox>true</sandbox>` and
`<disabled>false</disabled>`) around the rendered template, which stands
unchanged between `<script><![CDATA[` and `]]></script>`. -/
theorem AddNewJob_body_embeds_script (env : Env) (j : JenkinsClient)
    (jobName templatePath script : GoString) (params : JobParams)
    (hread : env.readFile templatePath = Except.ok script)
    (hurl : env.parseURL (j.BaseURL ++ lit "/createItem?name=" ++ jobName) = none) :
    ∃ post, (AddNewJob env j jobName templatePath params).2.getLast? = some post ∧
      post.Method = lit "POST" ∧
      post.Body =
        lit ("<?xml version='1.1' encoding='UTF-8'?>\n" ++
          "<flow-definition plugin=\"workflow-job\">\n" ++
          "  <actions/>\n" ++
          "  <description>Pipeline job created by MRTUX tool</description>\n" ++
          "  <keepDependencies>false</keepDependencies>\n" ++
          "  <properties/>\n" ++
          "  <definition class=\"org.jenkinsci.plugins.workflow.cps.CpsFlowDefinition\" plugin=\"workflow-cps\">\n" ++
          "    <script><![CDATA[") ++
        renderTemplate script params ++
        lit ("]]></script>\n" ++
          "    <sandbox>true</sandbox>\n" ++
          "  </definition>\n" ++
          "  <triggers/>\n" ++
          "  <disabled>false</disabled>\n" ++
          "</flow-definition>") := by
  rw [AddNewJob_run env j jobName templatePath script params hread hurl]
  exact ⟨createItemFinal j jobName script params (getCrumb env j).1, by simp,
    createItemFinal_method _ _ _ _ _, createItemFinal_body _ _ _ _ _⟩

/-- The end-to-end scenario: a template made of `{{PRODUCT_NAME}}` only and
ProductName `demo` give a body that contains `<script><![CDATA[demo]]></script>`. -/
theorem AddNewJob_body_embeds_script_witness :
    ∃ post,
      (AddNewJob (demoEnv (Except.error []) (Except.error [])) demoClient (lit "demo") []
        ⟨lit "demo", [], [], []⟩).2.getLast? = some post ∧
      Contains post.Body (lit "<script><![CDATA[demo]]></script>") = true := by
  obtain ⟨post, h1, _, h3⟩ := AddNewJob_body_embeds_script
    (demoEnv (Except.error []) (Except.error [])) demoClient (lit "demo") []
    (lit "\x7b\x7bPRODUCT_NAME\x7d\x7d") ⟨lit "demo", [], [], []⟩ rfl rfl
  exact ⟨post, h1, by rw [h3]; decide⟩

/-- C9. Authorization header round trip: `getAuthHeader` is `Basic ` followed by
the standard base64 encoding of `username:apiToken`; decoding the text after
`Basic ` gives back exactly `username:apiToken`; the password field has no
influence on it, nor on any of the three operations.  The header is set on the
requests: `TestConnection` with an accepted URL sends exactly one request, the
GET of `{base}/api/json`, and `getCrumb` with an accepted URL sends exactly one
request, the GET of `{base}/crumbIssuer/api/json`, each with this value as its
`Authorization` header; `AddNewJob` on a readable template with an accepted
createItem URL sends the requests of `getCrumb` and then the POST of
`{base}/createItem?name=<jobName>` with this value as its `Authorization`
header; and no request of any of the three operations is without it. -/
theorem getAuthHeader_roundtrip (j : JenkinsClient) :
    getAuthHeader j
      = lit "Basic " ++ EncodeToString (j.Config.JenkinsUsername ++ lit ":" ++ j.Config.APIToken) ∧
    DecodeString ((getAuthHeader j).drop 6)
      = some (j.Config.JenkinsUsername ++ lit ":" ++ j.Config.APIToken) ∧
    (∀ password, getAuthHeader { j with Config := { j.Config with JenkinsPassword := password } }
      = getAuthHeader j) ∧
    (∀ password env jobName templatePath params,
      TestConnection env { j with Config := { j.Config with JenkinsPassword := password } }
        = TestConnection env j ∧
      getCrumb env { j with Config := { j.Config with JenkinsPassword := password } }
        = getCrumb env j ∧
      AddNewJob env { j with Config := { j.Config with JenkinsPassword := password } }
          jobName templatePath params
        = AddNewJob env j jobName templatePath params) ∧
    (∀ env, env.parseURL (j.BaseURL ++ lit "/api/json") = none →
      ∃ req, (TestConnection env j).2 = [req] ∧ req.Method = lit "GET" ∧
        req.URL = j.BaseURL ++ lit "/api/json" ∧
        req.Get (lit "Authorization") = some (getAuthHeader j)) ∧
    (∀ env, env.parseURL (j.BaseURL ++ lit "/crumbIssuer/api/json") = none →
      ∃ req, (getCrumb env j).2 = [req] ∧ req.Method = lit "GET" ∧
        req.URL = j.BaseURL ++ lit "/crumbIssuer/api/json" ∧
        req.Get (lit "Authorization") = some (getAuthHeader j)) ∧
    (∀ env jobName templatePath params script,
      env.readFile templatePath = Except.ok script →
      env.parseURL (j.BaseURL ++ lit "/createItem?name=" ++ jobName) = none →
      ∃ post, (AddNewJob env j jobName templatePath params).2 = (getCrumb env j).2 ++ [post] ∧
        post.Method = lit "POST" ∧
        post.URL = j.BaseURL ++ lit "/createItem?name=" ++ jobName ∧
        post.Get (lit "Authorization") = some (getAuthHeader j)) ∧
    (∀ env, ∀ req ∈ (TestConnection env j).2,
      req.Get (lit "Authorization") = some (getAuthHeader j)) ∧
    (∀ env, ∀ req ∈ (getCrumb env j).2,
      req.Get (lit "Authorization") = some (getAuthHeader j)) ∧
    (∀ env jobName templatePath params,
      ∀ req ∈ (AddNewJob env j jobName templatePath params).2,
        req.Get (lit "Authorization") = some (getAuthHeader j)) := by
  have hcrumb : ∀ env, ∀ req ∈ (getCrumb env j).2,
      req.Get (lit "Authorization") = some (getAuthHeader j) := by
    intro env req hreq
    rw [getCrumb_sent] at hreq
    split_ifs at hreq
    · rw [List.mem_singleton] at hreq
      subst hreq
      simp [Request.Get, crumbRequest]
    · simp at hreq
  have hfinal : ∀ env jobName script params,
      (createItemFinal j jobName script params (getCrumb env j).1).Get (lit "Authorization")
        = some (getAuthHeader j) := by
    intro env jobName script params
    apply base_get_authorization
    rcases getCrumb_header env j with h | ⟨h, _⟩
    · exact Or.inl h
    · exact Or.inr h
  refine ⟨rfl, ?_, fun _ => rfl, fun _ _ _ _ _ => ⟨rfl, rfl, rfl⟩, ?_, ?_, ?_, ?_, hcrumb, ?_⟩
  · have hd : (getAuthHeader j).drop 6
        = EncodeToString (j.Config.JenkinsUsername ++ lit ":" ++ j.Config.APIToken) := by
      have e : lit "Basic " = [66, 97, 115, 105, 99, 32] := by decide
      simp [getAuthHeader, e]
    rw [hd, decode_encode]
  · intro env hp
    refine ⟨connectionRequest j, TestConnection_sent env j hp, rfl, rfl, ?_⟩
    simp [Request.Get, connectionRequest]
  · intro env hp
    have hs := getCrumb_sent env j
    simp only [hp, if_true] at hs
    refine ⟨crumbRequest j, hs, rfl, rfl, ?_⟩
    simp [Request.Get, crumbRequest]
  · intro env jobName templatePath params script hread hurl
    refine ⟨createItemFinal j jobName script params (getCrumb env j).1, ?_,
      createItemFinal_method _ _ _ _ _, createItemFinal_url _ _ _ _ _, hfinal _ _ _ _⟩
    rw [AddNewJob_run env j jobName templatePath script params hread hurl]
  · intro env req hreq
    cases hp : env.parseURL (j.BaseURL ++ lit "/api/json") with
    | some e =>
      rw [TestConnection_rejected env j e hp] at hreq
      simp at hreq
    | none =>
      rw [TestConnection_sent env j hp, List.mem_singleton] at hreq
      subst hreq
      simp [Request.Get, connectionRequest]
  · intro env jobName templatePath params req hreq
    rcases AddNewJob_sent env j jobName templatePath params with h | ⟨script, _, _, h⟩
    · rw [h] at hreq
      simp at hreq
    · rw [h, List.mem_append, List.mem_singleton] at hreq
      rcases hreq with hc | hc
      · exact hcrumb env req hc
      · rw [hc]
        exact hfinal _ _ _ _

/-- The end-to-end scenario: user `bob` with token `t0k` gives
`Basic Ym9iOnQwaw==`, which decodes to `bob:t0k`; the connectivity check sends
one GET of `https://ci.example.com/api/json` with that `Authorization` header,
and creating the job `demo` sends the crumb GET and then the createItem POST,
both with that header. -/
theorem getAuthHeader_roundtrip_witness :
    getAuthHeader demoClient = lit "Basic Ym9iOnQwaw==" ∧
    DecodeString ((getAuthHeader demoClient).drop 6) = some (lit "bob:t0k") ∧
    (∃ req, (TestConnection (demoEnv (Except.ok ⟨200, [], none⟩) (Except.error []))
        demoClient).2 = [req] ∧
      req.Method = lit "GET" ∧ req.URL = lit "https://ci.example.com/api/json" ∧
      req.Get (lit "Authorization") = some (lit "Basic Ym9iOnQwaw==")) ∧
    (∃ get post, (AddNewJob (demoEnv (Except.ok ⟨404, [], none⟩) (Except.ok ⟨200, [], none⟩))
        demoClient (lit "demo") (lit "templates/jenkins/demo.groovy")
        ⟨lit "demo", [], [], []⟩).2 = [get, post] ∧
      get.Method = lit "GET" ∧ get.URL = lit "https://ci.example.com/crumbIssuer/api/json" ∧
      get.Get (lit "Authorization") = some (lit "Basic Ym9iOnQwaw==") ∧
      post.Method = lit "POST" ∧ post.URL = lit "https://ci.example.com/createItem?name=demo" ∧
      post.Get (lit "Authorization") = some (lit "Basic Ym9iOnQwaw==")) := by
  have h := getAuthHeader_roundtrip demoClient
  have hauth : getAuthHeader demoClient = lit "Basic Ym9iOnQwaw==" := h.1.trans (by decide)
  obtain ⟨req, hs, hm, hu, hg⟩ := h.2.2.2.2.1
    (demoEnv (Except.ok ⟨200, [], none⟩) (Except.error [])) rfl
  obtain ⟨get, cs, cm, cu, cg⟩ := h.2.2.2.2.2.1
    (demoEnv (Except.ok ⟨404, [], none⟩) (Except.ok ⟨200, [], none⟩)) rfl
  obtain ⟨post, ps, pm, pu, pg⟩ := h.2.2.2.2.2.2.1
    (demoEnv (Except.ok ⟨404, [], none⟩) (Except.ok ⟨200, [], none⟩)) (lit "demo")
    (lit "templates/jenkins/demo.groovy") ⟨lit "demo", [], [], []⟩
    (lit "\x7b\x7bPRODUCT_NAME\x7d\x7d") rfl rfl
  refine ⟨hauth, h.2.1.trans (by decide), ⟨req, hs, hm, hu.trans (by decide), hauth ▸ hg⟩,
    ⟨get, post, ?_, cm, cu.trans (by decide), hauth ▸ cg, pm, pu.trans (by decide),
      hauth ▸ pg⟩⟩
  rw [ps, cs]
  rfl

/-- C10. Git URL construction: `BuildGitURL(f, r)` is the configured git base URL
followed by `/`, `f`, `/`, `r` and `.git`, with `f` and `r` taken as they are;
it depends on the client only through the git base URL, so equal inputs give
equal output. -/
theorem BuildGitURL_composition (b f r : GoString) :
    ∀ (jenkinsURL username password apiToken baseURL : GoString),
      BuildGitURL ⟨⟨jenkinsURL, b, username, password, apiToken⟩, baseURL⟩ f r
        = b ++ lit "/" ++ f ++ lit "/" ++ r ++ lit ".git" := by
  intro jenkinsURL username password apiToken baseURL
  exact sprintf_gitURL b f r

end Mrtux
